import Mathlib

/-
Verification of the wrm-cli validation and curation engine.

The source programs are line-oriented text scanners written in Python
(scripts/download_swmm_examples.py, scripts/download_epanet_examples.py,
examples/validate_input.py).  Documents are modelled as lists of
characters; the Python string primitives the code relies on
(str.strip, str.split, substring containment, the specific regular
expressions used for FILE references) are embedded as executable
functions on lists of characters with the same semantics, restricted
to ASCII (the source files and the corpus they scan are ASCII).
Filesystems are modelled as lists of path strings (the set of existing
files); IO failure branches of the source (unreadable file, failed
copy) are noted where they are elided.
-/

namespace Py

/-- Whitespace characters recognised by Python str.strip / str.split /
regex \s (ASCII range). -/
def pyIsSpace (c : Char) : Bool :=
  c = ' ' || c = '\t' || c = '\n' || c = '\r' || c = Char.ofNat 11 || c = Char.ofNat 12

/-- The double-quote character. -/
def dq : Char := Char.ofNat 34

/-- The single-quote character. -/
def sq : Char := Char.ofNat 39

/-- Python str.strip with no argument: drop whitespace on both ends. -/
def pyStrip (s : List Char) : List Char :=
  ((s.dropWhile pyIsSpace).reverse.dropWhile pyIsSpace).reverse

/-- Accumulator pass of pySplit: acc holds the reversed characters of
the token being read. -/
def pySplitAux : List Char → List Char → List (List Char)
  | [], acc => if acc.isEmpty then [] else [acc.reverse]
  | c :: rest, acc =>
    if pyIsSpace c then
      if acc.isEmpty then pySplitAux rest [] else acc.reverse :: pySplitAux rest []
    else pySplitAux rest (c :: acc)

/-- Python str.split with no argument: split on runs of whitespace,
dropping empty pieces. -/
def pySplit (s : List Char) : List (List Char) := pySplitAux s []

/-- Python str.split on a newline: cut the character list at each
newline character (empty pieces kept). -/
def splitNl : List Char → List (List Char)
  | [] => [[]]
  | c :: rest =>
    if c = '\n' then [] :: splitNl rest
    else
      match splitNl rest with
      | [] => [[c]]
      | l :: ls => (c :: l) :: ls

/-- Python substring containment: sub occurs somewhere in s. -/
def containsSub (sub : List Char) : List Char → Bool
  | [] => sub.isEmpty
  | c :: rest => List.isPrefixOf sub (c :: rest) || containsSub sub rest

/-- Index of the first occurrence of sub in s (Python str.find when the
substring is present). -/
def firstSubIdx (sub : List Char) : List Char → Option Nat
  | [] => if sub.isEmpty then some 0 else none
  | c :: rest =>
    if List.isPrefixOf sub (c :: rest) then some 0
    else (firstSubIdx sub rest).map (· + 1)

/-- Python str.upper on ASCII text, applied character by character. -/
def upperL (s : List Char) : List Char := s.map Char.toUpper

/-- Whether a (stripped) line starts with the comment marker. -/
def startsSemi (s : List Char) : Bool :=
  match s with
  | [] => false
  | c :: _ => c = ';'

/-- Prefix of s up to (excluding) the first occurrence of character c:
Python s.split(c)[0]. -/
def takeUntilChar (c : Char) (s : List Char) : List Char :=
  s.takeWhile (fun x => x ≠ c)

/-- Suffix of s after the first occurrence of the substring sep ([] when
sep does not occur); combined with takeUntilChar this mirrors the
Python idiom content.split(sep)[1].split(c)[0] used for section
chunks (the next occurrence of sep itself starts with c, so cutting
the full suffix at the first c is the same as cutting the piece
between the first two occurrences of sep). -/
def afterSub (sep : List Char) : List Char → List Char
  | [] => []
  | c :: rest =>
    if List.isPrefixOf sep (c :: rest) then (c :: rest).drop sep.length
    else afterSub sep rest

/-- Path join with a forward slash, mirroring the pathlib joins of the
source on the POSIX runs being modelled. -/
def joinPath (a b : List Char) : List Char := a ++ '/' :: b

end Py

namespace Py

/-- Result of Python float() on a string: an exact signed decimal
(mantissa, decimal scale, decimal exponent), an infinity, or nan.
The value of num neg m sc ex is (-1)^neg * m / 10^sc * 10^ex. -/
inductive PyF where
  | num (neg : Bool) (mant : Nat) (scale : Nat) (ex : Int)
  | inf (neg : Bool)
  | nan
deriving DecidableEq, Repr

/-- Numeric value of a digit run. -/
def digitsVal (ds : List Char) : Nat :=
  ds.foldl (fun a c => a * 10 + (c.toNat - 48)) 0

/-- Continuation of a digit run per the CPython literal grammar
digitpart ::= digit (["_"] digit)*: digits, with single underscores
allowed only between digits (PEP 515).  Returns the digits with the
underscores removed, and the unconsumed rest (an underscore not
followed by a digit is not consumed). -/
def digitRunAux : List Char → List Char × List Char
  | [] => ([], [])
  | c :: rest =>
    if c.isDigit then
      let (ds, r) := digitRunAux rest
      (c :: ds, r)
    else if c = '_' then
      match rest with
      | d :: rest2 =>
        if d.isDigit then
          let (ds, r) := digitRunAux rest2
          (d :: ds, r)
        else ([], c :: rest)
      | [] => ([], [c])
    else ([], c :: rest)

/-- A digit run must begin with a digit; on success returns the digits
(underscores removed) and the unconsumed rest. -/
def digitRun (s : List Char) : Option (List Char × List Char) :=
  match s with
  | c :: rest =>
    if c.isDigit then
      let (ds, r) := digitRunAux rest
      some (c :: ds, r)
    else none
  | [] => none

/-- Parse the mantissa-and-exponent part of a Python float literal
(after sign handling): digitpart [. digitpart] [(e|E) [sign]
digitpart], with PEP 515 underscores inside each digit part. -/
def parseNum (neg : Bool) (t : List Char) : Option PyF :=
  let (intD, r1) :=
    match digitRun t with
    | some (ds, r) => (ds, r)
    | none => ([], t)
  let (fracD, r2) :=
    match r1 with
    | c :: r =>
      if c = '.' then
        match digitRun r with
        | some (ds, rr) => (ds, rr)
        | none => ([], r)
      else ([], r1)
    | [] => ([], r1)
  if intD.isEmpty && fracD.isEmpty then none
  else
    let mant := digitsVal (intD ++ fracD)
    let scale := fracD.length
    match r2 with
    | [] => some (.num neg mant scale 0)
    | c :: r3 =>
      if c = 'e' || c = 'E' then
        let (esign, r4) :=
          match r3 with
          | d :: r => if d = '-' then (true, r) else if d = '+' then (false, r) else (false, r3)
          | [] => (false, r3)
        match digitRun r4 with
        | some (ds, rr) =>
          if rr.isEmpty then
            some (.num neg mant scale (if esign then -(digitsVal ds : Int) else (digitsVal ds : Int)))
          else none
        | none => none
      else none

/-- Python float() on a string: strip, optional sign, then either an
infinity / nan keyword or a decimal literal.  Values are carried as
exact decimals; the binary64 rounding CPython applies to the literal
is accounted for in the comparison pyFloatGtOne. -/
def pyFloat (s : List Char) : Option PyF :=
  let t := pyStrip s
  let (neg, t2) :=
    match t with
    | c :: r => if c = '-' then (true, r) else if c = '+' then (false, r) else (false, t)
    | [] => (false, t)
  let u := upperL t2
  if u = "INF".data || u = "INFINITY".data then some (.inf neg)
  else if u = "NAN".data then some .nan
  else parseNum neg t2

/-- Strict comparison of the parsed float with 1.0, under binary64
semantics: CPython rounds the literal's exact value v to the nearest
double (ties to even) before comparing, and the rounded double
exceeds 1.0 exactly when v exceeds 1 + 2^-53.  (Doubles adjacent to
1.0 are 1 - 2^-53 and 1 + 2^-52; every v at most the midpoint
1 + 2^-53 rounds to a double at most 1.0 — the midpoint itself ties
to the even 1.0 — while every larger v rounds to at least 1 + 2^-52;
values rounding up to infinity compare the same way on both sides.)
For v = m / 10^sc * 10^ex that threshold test is the integer
comparison below. -/
def pyFloatGtOne : PyF → Bool
  | .num neg m sc ex =>
    if neg then false
    else if (sc : Int) ≤ ex then m * 2 ^ 53 * 10 ^ (ex - sc).toNat > 2 ^ 53 + 1
    else m * 2 ^ 53 > (2 ^ 53 + 1) * 10 ^ ((sc : Int) - ex).toNat
  | .inf neg => !neg
  | .nan => false

end Py

namespace Py

/-- Case-insensitive match of one character against an upper-case
letter, as the re.IGNORECASE flag does for ASCII. -/
def charCI (c u : Char) : Bool := c.toUpper = u

/-- Case-insensitive literal prefix "FILE", the fixed head of both
FILE-reference patterns. -/
def fileHead : List Char → Bool
  | c1 :: c2 :: c3 :: c4 :: _ => charCI c1 'F' && charCI c2 'I' && charCI c3 'L' && charCI c4 'E'
  | _ => false

/-- Attempt of the unquoted pattern FILE\s+([^\s]+) at the head of s:
on success, the match length and the captured token (both greedy,
as the regex engine computes them). -/
def tryU (s : List Char) : Option (Nat × List Char) :=
  if fileHead s then
    let r := s.drop 4
    let ws := r.takeWhile pyIsSpace
    if ws.isEmpty then none
    else
      let tok := (r.drop ws.length).takeWhile (fun c => !pyIsSpace c)
      if tok.isEmpty then none
      else some (4 + ws.length + tok.length, tok)
  else none

/-- A character that is neither quote kind (the class [^"\'] of the
quoted pattern). -/
def notQuote (c : Char) : Bool := c ≠ dq && c ≠ sq

/-- Attempt of the quoted pattern FILE\s+["\']([^"\']+)["\'] at the head
of s: FILE, whitespace, an opening quote of either kind, a nonempty
run of non-quote characters, and a closing quote of either kind. -/
def tryQ (s : List Char) : Option (Nat × List Char) :=
  if fileHead s then
    let r := s.drop 4
    let ws := r.takeWhile pyIsSpace
    if ws.isEmpty then none
    else
      match r.drop ws.length with
      | q :: rest =>
        if notQuote q then none
        else
          let grp := rest.takeWhile notQuote
          if grp.isEmpty then none
          else
            match rest.drop grp.length with
            | q2 :: _ => if notQuote q2 then none else some (4 + ws.length + 1 + grp.length + 1, grp)
            | [] => none
      | [] => none
  else none

/-- One step of re.finditer: at each position try the pattern; on a
match, emit (start offset, captured group) and skip the matched
span (non-overlapping matches); otherwise advance one character.
The skip argument counts characters of a previous match still to be
consumed. -/
def finditer (try? : List Char → Option (Nat × List Char)) :
    List Char → Nat → Nat → List (Nat × List Char)
  | [], _, _ => []
  | _ :: rest, p, skip + 1 => finditer try? rest (p + 1) skip
  | c :: rest, p, 0 =>
    match try? (c :: rest) with
    | some (len, grp) => (p, grp) :: finditer try? rest (p + 1) (len - 1)
    | none => finditer try? rest (p + 1) 0

end Py

namespace DownloadSwmm

open Py

/-- The backdrop header literal.  A position is a line start (the
re.MULTILINE anchor) when it is the start of the scanned string or
the previous character is a newline; the scanners below track this
as a flag while walking the string. -/
def bdropHdr : List Char := "[BACKDROP]".data

/-- First position of s, among those at a line start, where the literal
[BACKDROP] begins, case-insensitively — the search for the anchored
pattern of parse_swmm_for_external_files.  The flag atStart records
whether the current position is a line start. -/
def findBackdropHdr : List Char → Bool → Option Nat
  | [], _ => none
  | c :: rest, atStart =>
    if atStart && List.isPrefixOf bdropHdr (upperL (c :: rest)) then some 0
    else (findBackdropHdr rest (c = '\n')).map (· + 1)

/-- First position of s, among those at a line start, holding an opening
bracket — the search for the next section header after [BACKDROP].
The slice it scans begins right after the header, and the anchor
matches at the start of a slice, so atStart begins true. -/
def findNextSection : List Char → Bool → Option Nat
  | [], _ => none
  | c :: rest, atStart =>
    if atStart && c = '[' then some 0
    else (findNextSection rest (c = '\n')).map (· + 1)

/-- Span of the [BACKDROP] section: computed only when the literal
occurs in the upper-cased content, from the anchored header match to
the next anchored section header, or the end of the text. -/
def backdropSpan (content : List Char) : Option (Nat × Nat) :=
  if containsSub bdropHdr (upperL content) then
    match findBackdropHdr content true with
    | some st =>
      let e := st + bdropHdr.length
      match findNextSection (content.drop e) true with
      | some q => some (st, e + q)
      | none => some (st, content.length)
    | none => none
  else none

/-- All matches of the two FILE-reference patterns over the content, in
the order the source iterates them: first the quoted pattern, then
the unquoted one, each as (match start offset, captured group). -/
def fileMatches (content : List Char) : List (Nat × List Char) :=
  finditer tryQ content 0 0 ++ finditer tryU content 0 0

/-- The absolute-path test applied to a captured reference: a leading
slash, a drive colon-backslash, or a leading C: means the reference
is skipped. -/
def isAbsoluteRef (f : List Char) : Bool :=
  (match f with | c :: _ => c = '/' | [] => false)
  || containsSub [':', '\\'] f
  || (match f with | c1 :: c2 :: _ => c1 = 'C' && c2 = ':' | _ => false)

/-- Keep a match: discard it when it starts inside the [BACKDROP] span,
or when the captured reference is an absolute path. -/
def keepMatch (span : Option (Nat × Nat)) (m : Nat × List Char) : Bool :=
  (match span with
   | some (bs, be) => !(bs ≤ m.1 && m.1 < be)
   | none => true)
  && !isAbsoluteRef m.2

/-- parse_swmm_for_external_files: the external-file references of a
document.  The Python function collects them into a set; the list
here may repeat a reference, and is used only through membership. -/
def parse_swmm_for_external_files (content : List Char) : List (List Char) :=
  ((fileMatches content).filter (keepMatch (backdropSpan content))).map (·.2)

/-- find_external_file_local: resolve a reference against the local
repository filesystem (modelled as the list of existing file paths):
the document folder, its data subfolder, then the corpus DataFiles
folder, first hit wins. -/
def find_external_file_local (fs : List (List Char)) (repoDir folderPath : List Char)
    (filename : List Char) : Option (List Char) :=
  let p1 := joinPath (joinPath repoDir folderPath) filename
  if p1 ∈ fs then some p1
  else
    let p2 := joinPath (joinPath (joinPath repoDir folderPath) "data".data) filename
    if p2 ∈ fs then some p2
    else
      let p3 := joinPath (joinPath repoDir "DataFiles".data) filename
      if p3 ∈ fs then some p3
      else none


/-- One validation finding of the downloader's validate_swmm_file.  The
source represents findings as message strings; each constructor
stands for one append site and carries the data interpolated into
the message. -/
inductive SwmmIssue where
  | missingOptions
  | missingModelElements
  | invalidIMD (tok : List Char)
  | undefinedTimeseries (name : List Char)
  | sectionOrder
  | absolutePaths
deriving DecidableEq, Repr

/-- Section chunk used throughout the downloader:
content.split(header)[1].split('[')[0] — text after the first
occurrence of the header, cut at the next opening bracket. -/
def sectionChunk (header content : List Char) : List Char :=
  takeUntilChar '[' (afterSub header content)

/-- Tokens parts[3] of the infiltration rows that violate the IMD bound:
non-blank, non-comment lines of the [INFILTRATION] chunk with at
least 4 whitespace-separated fields whose 4th field parses as a
float greater than 1.0. -/
def imdViolations (content : List Char) : List (List Char) :=
  if containsSub "[INFILTRATION]".data content then
    (splitNl (sectionChunk "[INFILTRATION]".data content)).flatMap fun line =>
      if !(pyStrip line).isEmpty && !startsSemi (pyStrip line) then
        let parts := pySplit line
        if parts.length ≥ 4 then
          match pyFloat (parts.getD 3 []) with
          | some v => if pyFloatGtOne v then [parts.getD 3 []] else []
          | none => []
        else []
      else []
  else []

/-- Word searched for inside gauge lines. -/
def tsWord : List Char := "TIMESERIES".data

/-- Time-series names defined in the [TIMESERIES] chunk: the first token
of every non-blank, non-comment line.  The source collects them into
a set; the list is used only through membership. -/
def definedTs (content : List Char) : List (List Char) :=
  (splitNl (sectionChunk "[TIMESERIES]".data content)).filterMap fun line =>
    if !(pyStrip line).isEmpty && !startsSemi (pyStrip line) then
      match pySplit line with
      | t :: _ => some t
      | [] => none
    else none

/-- The tokens immediately following a literal TIMESERIES token on a
line (the source walks the token list with an index and takes
parts[i+1] whenever parts[i].upper() is TIMESERIES and i+1 is in
range). -/
def citeScan : List (List Char) → List (List Char)
  | [] => []
  | [_] => []
  | x :: y :: rest => (if upperL x = tsWord then [y] else []) ++ citeScan (y :: rest)

/-- Cited time-series names of the [RAINGAGES] chunk that are not
defined in the [TIMESERIES] chunk, in scan order: lines mentioning
TIMESERIES (case-insensitively) that are not comments contribute the
token after each TIMESERIES token, filtered by the defined set. -/
def undefinedTsRefs (content : List Char) : List (List Char) :=
  if containsSub "[RAINGAGES]".data content && containsSub "[TIMESERIES]".data content then
    (splitNl (sectionChunk "[RAINGAGES]".data content)).flatMap fun line =>
      if containsSub tsWord (upperL line) && !startsSemi (pyStrip line) then
        (citeScan (pySplit line)).filter (fun n => !(definedTs content).contains n)
      else []
  else []

/-- The section-order finding of the downloader: guarded on both section
headers occurring, [TIMESERIES] found later than [RAINGAGES], and
the word TIMESERIES occurring in content[raingages_pos:].split('[')[0]
(the slice from the [RAINGAGES] header cut at the next bracket). -/
def sectionOrderIssues (content : List Char) : List SwmmIssue :=
  if containsSub "[RAINGAGES]".data content && containsSub "[TIMESERIES]".data content then
    match firstSubIdx "[RAINGAGES]".data content, firstSubIdx "[TIMESERIES]".data content with
    | some rgPos, some tsPos =>
      if tsPos > rgPos then
        if containsSub tsWord (upperL (takeUntilChar '[' (content.drop rgPos))) then
          [.sectionOrder]
        else []
      else []
    | _, _ => []
  else []

/-- The absolute-path scan re.search(["\']([C-Z]:\\|/Users/|/home/)):
a quote of either kind immediately followed by a drive letter with
colon and backslash, or by /Users/, or by /home/. -/
def hasAbsolutePathLiteral : List Char → Bool
  | [] => false
  | q :: rest =>
    ((q = dq || q = sq) &&
      ((match rest with
        | c1 :: c2 :: c3 :: _ => (('C' ≤ c1 && c1 ≤ 'Z') && c2 = ':') && c3 = '\\'
        | _ => false)
       || List.isPrefixOf "/Users/".data rest || List.isPrefixOf "/home/".data rest))
    || hasAbsolutePathLiteral rest

/-- validate_swmm_file of the downloader: required [OPTIONS] section,
hydrology or hydraulics model elements, infiltration IMD bound,
undefined TIMESERIES references from [RAINGAGES], the section-order
check, and the absolute-path scan, appended in source order. -/
def validate_swmm_file (content : List Char) : List SwmmIssue :=
  (if !containsSub "[OPTIONS]".data content then [.missingOptions] else [])
  ++ (if !containsSub "[SUBCATCHMENTS]".data content
         && !(containsSub "[JUNCTIONS]".data content || containsSub "[CONDUITS]".data content
              || containsSub "[STORAGE]".data content)
      then [.missingModelElements] else [])
  ++ (imdViolations content).map .invalidIMD
  ++ (undefinedTsRefs content).map .undefinedTimeseries
  ++ sectionOrderIssues content
  ++ (if hasAbsolutePathLiteral content then [.absolutePaths] else [])

/-- The string test of the leniency rule: whether the Python repr of the
issue list contains the literal text Missing required section.  Only
the [OPTIONS] finding's message contains it (every other message
interpolates only whitespace-free tokens and fixed text without the
phrase). -/
def mentionsMissingRequired (issues : List SwmmIssue) : Bool :=
  issues.any fun i => match i with | .missingOptions => true | _ => false

/-- The curator's tolerance policy applied after validation: a document
is kept when validation found nothing, or found at most two issues
none of which is the missing-required-section message. -/
def acceptedByLeniency (content : List Char) : Bool :=
  let issues := validate_swmm_file content
  issues.isEmpty || (issues.length ≤ 2 && !mentionsMissingRequired issues)

/-- Verdict of process_inp_file_parallel for one document.  The
read-error and copy-failure branches of the source are IO failures
outside the model; copying is modelled as always succeeding. -/
inductive PResult where
  | rejectedMissing (missing : List (List Char))
  | rejectedValidation (issues : List SwmmIssue)
  | accepted
deriving DecidableEq, Repr

/-- process_inp_file_parallel: extract external references, resolve each
against the local filesystem, reject on any missing one; otherwise
validate and apply the tolerance policy. -/
def process_inp_file_parallel (fs : List (List Char)) (repoDir folderPath content : List Char) :
    PResult :=
  let refs := parse_swmm_for_external_files content
  let missing := refs.filter fun f => (find_external_file_local fs repoDir folderPath f).isNone
  if !refs.isEmpty && !missing.isEmpty then .rejectedMissing missing
  else if acceptedByLeniency content then .accepted
  else .rejectedValidation (validate_swmm_file content)

end DownloadSwmm

namespace ValidateInput

open Py

/-- Issue categories emitted by validate_swmm_file of
examples/validate_input.py. -/
inductive VType where
  | external_file
  | invalid_parameter
  | undefined_reference
  | section_order
deriving DecidableEq, Repr

/-- Severity of an issue. -/
inductive VSev where
  | warning
  | error
deriving DecidableEq, Repr

/-- One issue record: category, 1-based line number (0 for the
file-level section-order finding), severity.  The message and
suggestion strings of the source are fixed text around data already
present in the record and are not repeated here. -/
structure VIssue where
  itype : VType
  line : Nat
  severity : VSev
deriving DecidableEq, Repr

/-- Scanner state threaded through the line loop: the current section
and the names defined so far in the three name-defining sections.
The sets of the source are lists used through membership. -/
structure VState where
  cur : Option (List Char)
  ts : List (List Char)
  pats : List (List Char)
  curves : List (List Char)
deriving DecidableEq, Repr

/-- Initial scanner state. -/
def vInit : VState := ⟨none, [], [], []⟩

/-- A stripped line that opens a section: it starts with an opening and
ends with a closing bracket. -/
def isHeader (s : List Char) : Bool :=
  match s with
  | c :: rest => c = '[' && (match rest.getLast? with | some l => l = ']' | none => false)
  | [] => false

/-- Section name of a header line: the bracketed text, upper-cased. -/
def headerName (s : List Char) : List Char := upperL ((s.drop 1).dropLast)

/-- The current-section update a line performs before any check runs. -/
def headerUpd (st : VState) (s : List Char) : VState :=
  if isHeader s then { st with cur := some (headerName s) } else st

/-- First match of the quoted-path pattern ["\']([^"\']+)["\'] in a raw
line (re.search): the leftmost opening quote of either kind followed
by a nonempty run of non-quote characters and a closing quote. -/
def searchQuoted : List Char → Option (List Char)
  | [] => none
  | c :: rest =>
    if notQuote c then searchQuoted rest
    else
      let grp := rest.takeWhile notQuote
      if grp.isEmpty then searchQuoted rest
      else
        match rest.drop grp.length with
        | q2 :: _ => if notQuote q2 then searchQuoted rest else some grp
        | [] => searchQuoted rest

/-- Add the first token of a non-comment line to one of the defined-name
lists when the current section is the given one. -/
def addFirstTok (sec : List Char) (cur : Option (List Char)) (names : List (List Char))
    (s : List Char) : List (List Char) :=
  if cur = some sec then
    match pySplit s with
    | t :: _ => if startsSemi t then names else names ++ [t]
    | [] => names
  else names

/-- State after one line: section-header update, then (for non-blank,
non-comment lines) the name-tracking of the TIMESERIES, PATTERNS and
CURVES sections. -/
def lineState (st : VState) (line : List Char) : VState :=
  let s := pyStrip line
  let st1 := headerUpd st s
  if s.isEmpty || startsSemi s then st1
  else
    { st1 with
      ts := addFirstTok "TIMESERIES".data st1.cur st1.ts s
      pats := addFirstTok "PATTERNS".data st1.cur st1.pats s
      curves := addFirstTok "CURVES".data st1.cur st1.curves s }

/-- Position after the literal TIMESERIES token in a token list: the
source walks the tokens with an index and remembers index + 1 of the
first token whose upper-casing is TIMESERIES. -/
def tsIdx : List (List Char) → Option Nat
  | [] => none
  | x :: rest =>
    if upperL x = "TIMESERIES".data then some 1 else (tsIdx rest).map (· + 1)

/-- The per-line external-file check on the raw line: when the line
mentions FILE (case-insensitively) and holds a quote, the first
quoted token that is an absolute path yields a warning. -/
def fileIssues (i : Nat) (line : List Char) : List VIssue :=
  if containsSub "FILE".data (upperL line) && (line.contains dq || line.contains sq) then
    match searchQuoted line with
    | some ref =>
      if containsSub [':', '\\'] ref || (match ref with | c :: _ => c = '/' | [] => false) then
        [⟨.external_file, i, .warning⟩]
      else []
    | none => []
  else []

/-- The per-line infiltration check inside the INFILTRATION section:
rows of at least 4 fields whose 4th field parses as a float above
1.0 yield an error; short or unparsable rows yield nothing. -/
def infilIssues (stH : VState) (i : Nat) (s : List Char) : List VIssue :=
  if stH.cur = some "INFILTRATION".data then
    if (pySplit s).length ≥ 4 && !startsSemi ((pySplit s).getD 0 []) then
      match pyFloat ((pySplit s).getD 3 []) with
      | some v => if pyFloatGtOne v then [⟨.invalid_parameter, i, .error⟩] else []
      | none => []
    else []
  else []

/-- The per-line rain-gauge reference check inside the RAINGAGES
section: the token after the TIMESERIES token must be a name already
recorded in the defined set. -/
def rgIssues (stH : VState) (i : Nat) (line s : List Char) : List VIssue :=
  if stH.cur = some "RAINGAGES".data then
    if containsSub "TIMESERIES".data (upperL line) then
      match tsIdx (pySplit s) with
      | some idx =>
        if idx < (pySplit s).length then
          if !stH.ts.contains ((pySplit s).getD idx []) then [⟨.undefined_reference, i, .error⟩]
          else []
        else []
      | none => []
    else []
  else []

/-- Issues one line contributes, in source order: the external-file
check on the raw line, then the infiltration-parameter check, then
the rain-gauge reference check, each using the current section after
this line's header update. -/
def lineIssues (st : VState) (i : Nat) (line : List Char) : List VIssue :=
  if (pyStrip line).isEmpty || startsSemi (pyStrip line) then []
  else
    fileIssues i line
    ++ infilIssues (headerUpd st (pyStrip line)) i (pyStrip line)
    ++ rgIssues (headerUpd st (pyStrip line)) i line (pyStrip line)

/-- The line loop: issues of each line in order, threading the state. -/
def runLines (st : VState) (i : Nat) : List (List Char) → List VIssue
  | [] => []
  | l :: ls => lineIssues st i l ++ runLines (lineState st l) (i + 1) ls

/-- Section names in first-seen order (duplicates kept), as tracked by
the line loop alongside the state. -/
def sectionOrderList (lines : List (List Char)) : List (List Char) :=
  lines.filterMap fun l =>
    let s := pyStrip l
    if isHeader s then some (headerName s) else none

/-- Index of the first occurrence (Python list.index), meaningful under
a membership guard. -/
def firstIdxL (x : List Char) : List (List Char) → Nat
  | [] => 0
  | y :: rest => if y = x then 0 else firstIdxL x rest + 1

/-- The final section-order check: one warning at line 0 when both
RAINGAGES and TIMESERIES were seen and RAINGAGES came first. -/
def finalOrderCheck (lines : List (List Char)) : List VIssue :=
  if (sectionOrderList lines).contains "RAINGAGES".data
     && (sectionOrderList lines).contains "TIMESERIES".data
     && firstIdxL "RAINGAGES".data (sectionOrderList lines)
          < firstIdxL "TIMESERIES".data (sectionOrderList lines) then
    [⟨.section_order, 0, .warning⟩]
  else []

/-- validate_swmm_file of examples/validate_input.py over the list of
lines of the file. -/
def validateFromLines (lines : List (List Char)) : List VIssue :=
  runLines vInit 1 lines ++ finalOrderCheck lines

/-- validate_swmm_file over the raw file content (read then split on
newlines, as the source does). -/
def validate_swmm_file (content : List Char) : List VIssue :=
  validateFromLines (splitNl content)

/-- State after scanning a list of lines. -/
def stateAfter (lines : List (List Char)) : VState :=
  lines.foldl lineState vInit

end ValidateInput

namespace DownloadEpanet

open Py

/-- One HTTP response to a directory-listing request: status code and
the parsed JSON body (name / type entries). -/
structure HttpResponse where
  status : Nat
  listing : List (List Char × List Char)
deriving DecidableEq, Repr

/-- get_repo_contents of scripts/download_epanet_examples.py against a
stream of responses the server would give to successive identical
requests.  The function issues one request; raise_for_status raises
on any status of 400 or above and the handler returns an empty
listing.  Returned alongside the listing: how many requests were
made and how long the function slept, which the source fixes at one
and zero (there is no retry loop or cooldown in it). -/
def get_repo_contents (responses : Nat → HttpResponse) :
    List (List Char × List Char) × Nat × Nat :=
  let r := responses 0
  if 400 ≤ r.status then ([], 1, 0) else (r.listing, 1, 0)

end DownloadEpanet

namespace DownloadSwmm

open Py

/-- One candidate document of the downloaded corpus: relative folder
path, file name, and content. -/
structure CDoc where
  folder : List Char
  name : List Char
  content : List Char
deriving DecidableEq, Repr

/-- The output corpus root. -/
def outputDir : List Char := "EPASWMM Example Files".data

/-- Destination path of a document's staged copy. -/
def outPath (d : CDoc) : List Char := joinPath (joinPath outputDir d.folder) d.name

/-- find_inp_files_local: the candidate documents whose staged copy does
not yet exist (the existence check against the output directory);
already staged ones are skipped.  The source also sorts the result,
which only fixes the processing order and is not modelled. -/
def find_inp_files_local (docs : List CDoc) (staged : List (List Char)) : List CDoc :=
  docs.filter fun d => !staged.contains (outPath d)

/-- Whether the per-document pipeline accepts a document. -/
def docAccepted (fs : List (List Char)) (repoDir : List Char) (d : CDoc) : Bool :=
  match process_inp_file_parallel fs repoDir d.folder d.content with
  | .accepted => true
  | _ => false

/-- Outcome of one curation run: the staged .inp paths afterwards, how
many documents were processed, and how many were newly copied. -/
structure RunResult where
  staged : List (List Char)
  processed : Nat
  copied : Nat
deriving DecidableEq, Repr

/-- One run of main: discover candidates, skipping those whose staged
copy exists; process each; copy the accepted ones into the output
directory.  Copying is modelled as always succeeding, and only the
.inp destination paths are tracked (the existence check of the
discovery step consults only those); the auxiliary-file copies and
the progress counter of the source do not feed back into anything
modelled here. -/
def runCurator (fs : List (List Char)) (repoDir : List Char) (docs : List CDoc)
    (staged : List (List Char)) : RunResult :=
  let todo := find_inp_files_local docs staged
  let accepted := todo.filter (docAccepted fs repoDir)
  { staged := staged ++ accepted.map outPath
    processed := todo.length
    copied := accepted.length }

end DownloadSwmm

namespace Spec

/-- Issue typology of the specification, stated in its data model: the
findings of the required-section rule and of the
hydrology-or-hydraulics rule are the missing_section-type issues of
the downloader's validator. -/
def isMissingSectionType (i : DownloadSwmm.SwmmIssue) : Bool :=
  match i with
  | .missingOptions => true
  | .missingModelElements => true
  | _ => false

end Spec

namespace DownloadSwmm

open Py

/-- The leniency string test succeeds exactly on lists containing the
missing-[OPTIONS] finding. -/
lemma mentionsMissingRequired_iff (l : List SwmmIssue) :
    mentionsMissingRequired l = true ↔ SwmmIssue.missingOptions ∈ l := by
  unfold mentionsMissingRequired
  rw [List.any_eq_true]
  constructor
  · rintro ⟨x, hx, hp⟩
    cases x <;> simp_all
  · intro h
    exact ⟨_, h, rfl⟩

/-- With no missing external file, the verdict is accepted exactly when
the tolerance policy passes. -/
lemma process_accepted_iff (fs : List (List Char)) (repoDir folderPath content : List Char)
    (hnomiss : (parse_swmm_for_external_files content).filter
        (fun f => (find_external_file_local fs repoDir folderPath f).isNone) = []) :
    process_inp_file_parallel fs repoDir folderPath content = .accepted
      ↔ acceptedByLeniency content = true := by
  unfold process_inp_file_parallel
  simp only [hnomiss, List.isEmpty_nil, Bool.not_true, Bool.and_false]
  by_cases h : acceptedByLeniency content = true
  · simp [h]
  · simp only [Bool.not_eq_true] at h
    simp [h]

end DownloadSwmm

/-- C1 (counterexample): a document whose validation fails with the
single finding missing-model-elements — an issue of the spec's
missing_section type — is nonetheless promoted to accepted by the
curator, so acceptance does not imply the absence of
missing_section-type issues as the claim states. -/
theorem c1_counterexample :
    DownloadSwmm.validate_swmm_file "[OPTIONS]\nSTART_DATE 1/1/2020\n".data ≠ []
    ∧ (DownloadSwmm.validate_swmm_file "[OPTIONS]\nSTART_DATE 1/1/2020\n".data).length ≤ 2
    ∧ (DownloadSwmm.validate_swmm_file "[OPTIONS]\nSTART_DATE 1/1/2020\n".data).any
        Spec.isMissingSectionType = true
    ∧ DownloadSwmm.process_inp_file_parallel [] "repo".data "sub".data
        "[OPTIONS]\nSTART_DATE 1/1/2020\n".data = .accepted := by
  decide

/-- C1 (amended): for every document with no missing external file whose
validation produced a nonempty issue list, the curator promotes it
to accepted if and only if the issue count is at most 2 and none of
the issues is the missing-required-section finding for [OPTIONS]
(the missing-model-elements finding, although of the spec's
missing_section type, does not block the leniency). -/
theorem c1_leniency_amended (fs : List (List Char)) (repoDir folderPath content : List Char)
    (hnomiss : (DownloadSwmm.parse_swmm_for_external_files content).filter
        (fun f => (DownloadSwmm.find_external_file_local fs repoDir folderPath f).isNone) = [])
    (hfail : DownloadSwmm.validate_swmm_file content ≠ []) :
    DownloadSwmm.process_inp_file_parallel fs repoDir folderPath content = .accepted
      ↔ ((DownloadSwmm.validate_swmm_file content).length ≤ 2
          ∧ DownloadSwmm.SwmmIssue.missingOptions ∉ DownloadSwmm.validate_swmm_file content) := by
  rw [DownloadSwmm.process_accepted_iff fs repoDir folderPath content hnomiss]
  unfold DownloadSwmm.acceptedByLeniency
  have hne : (DownloadSwmm.validate_swmm_file content).isEmpty = false := by
    simpa [List.isEmpty_iff] using hfail
  simp only [hne, Bool.false_or, Bool.and_eq_true, decide_eq_true_eq, Bool.not_eq_true']
  constructor
  · rintro ⟨h1, h2⟩
    refine ⟨h1, fun hmem => ?_⟩
    rw [← DownloadSwmm.mentionsMissingRequired_iff] at hmem
    simp [hmem] at h2
  · rintro ⟨h1, h2⟩
    refine ⟨h1, ?_⟩
    rw [← Bool.not_eq_true, DownloadSwmm.mentionsMissingRequired_iff]
    exact h2

/-- C1 (witness): the amended leniency rule at a concrete rejected-then-
promoted document: two findings, none of them the [OPTIONS] one, so
the verdict is accepted. -/
theorem c1_leniency_amended_witness :
    ((DownloadSwmm.parse_swmm_for_external_files "[OPTIONS]\n[JUNCTIONS]\nJ1 0 0\n[TIMESERIES]\nT1 0 1\n[RAINGAGES]\nG1 TIMESERIES TX\nG2 TIMESERIES TY\n".data).filter
        (fun f => (DownloadSwmm.find_external_file_local [] "r".data "f".data f).isNone) = [])
    ∧ DownloadSwmm.validate_swmm_file "[OPTIONS]\n[JUNCTIONS]\nJ1 0 0\n[TIMESERIES]\nT1 0 1\n[RAINGAGES]\nG1 TIMESERIES TX\nG2 TIMESERIES TY\n".data ≠ []
    ∧ (DownloadSwmm.process_inp_file_parallel [] "r".data "f".data
        "[OPTIONS]\n[JUNCTIONS]\nJ1 0 0\n[TIMESERIES]\nT1 0 1\n[RAINGAGES]\nG1 TIMESERIES TX\nG2 TIMESERIES TY\n".data = .accepted
      ↔ ((DownloadSwmm.validate_swmm_file "[OPTIONS]\n[JUNCTIONS]\nJ1 0 0\n[TIMESERIES]\nT1 0 1\n[RAINGAGES]\nG1 TIMESERIES TX\nG2 TIMESERIES TY\n".data).length ≤ 2
          ∧ DownloadSwmm.SwmmIssue.missingOptions ∉ DownloadSwmm.validate_swmm_file "[OPTIONS]\n[JUNCTIONS]\nJ1 0 0\n[TIMESERIES]\nT1 0 1\n[RAINGAGES]\nG1 TIMESERIES TX\nG2 TIMESERIES TY\n".data)) :=
  ⟨by decide, by decide,
    c1_leniency_amended [] "r".data "f".data _ (by decide) (by decide)⟩

/-- C2 (counterexample): a dialect-A document lacking both the
rainfall-catchment section and every junction/conduit/storage
section is accepted by the curator — the missing-model-elements
finding is its only issue and the leniency rescues it, contrary to
the claim that acceptance must be false regardless of issue count. -/
theorem c2_counterexample :
    Py.containsSub "[SUBCATCHMENTS]".data "[OPTIONS]\nFLOW_UNITS CFS\n".data = false
    ∧ Py.containsSub "[JUNCTIONS]".data "[OPTIONS]\nFLOW_UNITS CFS\n".data = false
    ∧ Py.containsSub "[CONDUITS]".data "[OPTIONS]\nFLOW_UNITS CFS\n".data = false
    ∧ Py.containsSub "[STORAGE]".data "[OPTIONS]\nFLOW_UNITS CFS\n".data = false
    ∧ DownloadSwmm.SwmmIssue.missingModelElements
        ∈ DownloadSwmm.validate_swmm_file "[OPTIONS]\nFLOW_UNITS CFS\n".data
    ∧ DownloadSwmm.process_inp_file_parallel [] "repo".data "fld".data
        "[OPTIONS]\nFLOW_UNITS CFS\n".data = .accepted := by
  decide

/-- C2 (amended): a dialect-A document lacking both the
rainfall-catchment section and every junction/conduit/storage
section always carries the missing-model-elements finding, but the
curator rejects it only when the issue count exceeds 2 or the
[OPTIONS] section is also missing — the leniency can rescue it. -/
theorem c2_missing_sections_amended (content : List Char)
    (h1 : Py.containsSub "[SUBCATCHMENTS]".data content = false)
    (h2 : Py.containsSub "[JUNCTIONS]".data content = false)
    (h3 : Py.containsSub "[CONDUITS]".data content = false)
    (h4 : Py.containsSub "[STORAGE]".data content = false) :
    DownloadSwmm.SwmmIssue.missingModelElements ∈ DownloadSwmm.validate_swmm_file content
    ∧ (DownloadSwmm.acceptedByLeniency content = false
        ↔ (2 < (DownloadSwmm.validate_swmm_file content).length
            ∨ DownloadSwmm.SwmmIssue.missingOptions ∈ DownloadSwmm.validate_swmm_file content)) := by
  have hmem : DownloadSwmm.SwmmIssue.missingModelElements
      ∈ DownloadSwmm.validate_swmm_file content := by
    unfold DownloadSwmm.validate_swmm_file
    simp [h1, h2, h3, h4]
  refine ⟨hmem, ?_⟩
  unfold DownloadSwmm.acceptedByLeniency
  have hne : (DownloadSwmm.validate_swmm_file content).isEmpty = false := by
    rcases h : DownloadSwmm.validate_swmm_file content with _ | _
    · rw [h] at hmem; simp at hmem
    · simp
  have hm := DownloadSwmm.mentionsMissingRequired_iff (DownloadSwmm.validate_swmm_file content)
  by_cases hmo : DownloadSwmm.SwmmIssue.missingOptions ∈ DownloadSwmm.validate_swmm_file content
  · have hmt : DownloadSwmm.mentionsMissingRequired (DownloadSwmm.validate_swmm_file content)
        = true := hm.mpr hmo
    simp [hne, hmt, hmo]
  · have hmf : DownloadSwmm.mentionsMissingRequired (DownloadSwmm.validate_swmm_file content)
        = false := by
      cases hb : DownloadSwmm.mentionsMissingRequired (DownloadSwmm.validate_swmm_file content)
      · rfl
      · exact absurd (hm.mp hb) hmo
    by_cases hlen : (DownloadSwmm.validate_swmm_file content).length ≤ 2
    · simp [hne, hmf, hmo, hlen, Nat.not_lt.mpr hlen]
    · simp [hne, hmf, hmo, hlen, Nat.lt_of_not_le hlen]

/-- C2 (witness): the amended statement at a concrete document that has
the missing-model-elements finding together with a missing [OPTIONS]
section and is indeed rejected. -/
theorem c2_missing_sections_amended_witness :
    Py.containsSub "[SUBCATCHMENTS]".data "TITLE only\n".data = false
    ∧ (DownloadSwmm.SwmmIssue.missingModelElements
          ∈ DownloadSwmm.validate_swmm_file "TITLE only\n".data
        ∧ (DownloadSwmm.acceptedByLeniency "TITLE only\n".data = false
            ↔ (2 < (DownloadSwmm.validate_swmm_file "TITLE only\n".data).length
                ∨ DownloadSwmm.SwmmIssue.missingOptions
                    ∈ DownloadSwmm.validate_swmm_file "TITLE only\n".data))) :=
  ⟨by decide,
    c2_missing_sections_amended "TITLE only\n".data (by decide) (by decide) (by decide) (by decide)⟩

namespace Py

/-- A found first-occurrence index marks a real occurrence: the
substring is a prefix of the suffix starting there. -/
lemma firstSubIdx_prefix (sub : List Char) :
    ∀ (s : List Char) (i : Nat), firstSubIdx sub s = some i →
      List.isPrefixOf sub (s.drop i) = true := by
  intro s
  induction s with
  | nil =>
    intro i h
    unfold firstSubIdx at h
    split at h
    · rename_i hemp
      cases h
      have hsub : sub = [] := by
        cases sub
        · rfl
        · simp [List.isEmpty] at hemp
      subst hsub
      simp [List.isPrefixOf]
    · cases h
  | cons c rest ih =>
    intro i h
    unfold firstSubIdx at h
    split at h
    · rename_i hp
      cases h
      simpa using hp
    · rcases Option.map_eq_some'.mp h with ⟨j, hj, rfl⟩
      simpa using ih j hj

end Py

namespace DownloadSwmm

/-- The section-order branch of the downloader's validator is dead: the
text it scans for the word TIMESERIES is the slice starting at the
[RAINGAGES] header cut at the first opening bracket, which is the
bracket of that very header, so the slice is always empty. -/
lemma sectionOrderIssues_nil (content : List Char) : sectionOrderIssues content = [] := by
  unfold sectionOrderIssues
  split
  · split
    · rename_i rgPos tsPos hrg hts
      have hpre := Py.firstSubIdx_prefix _ _ _ hrg
      have hlit : "[RAINGAGES]".data = '[' :: "RAINGAGES]".data := rfl
      rw [hlit] at hpre
      cases hd : content.drop rgPos with
      | nil => rw [hd] at hpre; simp [List.isPrefixOf] at hpre
      | cons c t =>
        rw [hd] at hpre
        simp only [List.isPrefixOf, Bool.and_eq_true, beq_iff_eq] at hpre
        have hc : c = '[' := hpre.1.symm
        have hempty : Py.takeUntilChar '[' (c :: t) = [] := by
          subst hc
          simp [Py.takeUntilChar]
        rw [hempty]
        have hcf : Py.containsSub tsWord (Py.upperL []) = false := by decide
        simp [hcf]
    · rfl
  · rfl

end DownloadSwmm

/-- C7: the downloader never emits the section-order finding, for any
document whatsoever — in particular not for a document in which the
time-series section follows a gauge section citing a time series,
where the claim requires exactly one warning.  The branch is dead
because the gauge-section slice it checks is computed from the
opening bracket of the [RAINGAGES] header itself and is therefore
always empty. -/
theorem c7_section_order_never_emitted (content : List Char) :
    DownloadSwmm.SwmmIssue.sectionOrder ∉ DownloadSwmm.validate_swmm_file content := by
  intro h
  unfold DownloadSwmm.validate_swmm_file at h
  rw [DownloadSwmm.sectionOrderIssues_nil] at h
  simp only [List.mem_append, List.mem_map, List.not_mem_nil, or_false] at h
  rcases h with ((((h | h) | h) | h) | h)
  · split at h <;> simp_all
  · split at h <;> simp_all
  · rcases h with ⟨a, _, ha⟩
    exact DownloadSwmm.SwmmIssue.noConfusion ha
  · rcases h with ⟨a, _, ha⟩
    exact DownloadSwmm.SwmmIssue.noConfusion ha
  · split at h <;> simp_all

namespace DownloadEpanet

/-- A response stream whose first answer is a 403 throttle and whose
later answers would succeed with a nonempty listing. -/
def throttledStream : Nat → HttpResponse := fun n =>
  if n = 0 then ⟨403, []⟩ else ⟨200, [("net1.inp".data, "file".data)]⟩

/-- A response stream that always answers 429. -/
def alwaysThrottled : Nat → HttpResponse := fun _ => ⟨429, []⟩

end DownloadEpanet

/-- C8 (counterexample): a 403 throttle answer makes the resolver return
an empty listing after a single request and zero sleep — it does not
sleep a cooldown nor retry, although a retry would have returned a
nonempty listing; the throttled response is treated exactly like any
other failure, contrary to the claim. -/
theorem c8_counterexample :
    (DownloadEpanet.throttledStream 0).status = 403
    ∧ DownloadEpanet.get_repo_contents DownloadEpanet.throttledStream = ([], 1, 0)
    ∧ (DownloadEpanet.throttledStream 1).listing ≠ [] := by
  decide

/-- C8 (amended): for every response stream, the resolver issues exactly
one request and never sleeps; any response with status 400 or above
— 403 and 429 included — immediately yields an empty listing, and
only a successful response yields its parsed listing. -/
theorem c8_no_retry_amended (responses : Nat → DownloadEpanet.HttpResponse) :
    (400 ≤ (responses 0).status →
      DownloadEpanet.get_repo_contents responses = ([], 1, 0))
    ∧ ((responses 0).status < 400 →
      DownloadEpanet.get_repo_contents responses = ((responses 0).listing, 1, 0)) := by
  unfold DownloadEpanet.get_repo_contents
  constructor
  · intro h
    simp [h]
  · intro h
    simp [Nat.not_le_of_lt h]

/-- C8 (witness): the amended statement at the always-429 stream. -/
theorem c8_no_retry_amended_witness :
    400 ≤ (DownloadEpanet.alwaysThrottled 0).status
    ∧ DownloadEpanet.get_repo_contents DownloadEpanet.alwaysThrottled = ([], 1, 0) :=
  ⟨by decide, (c8_no_retry_amended DownloadEpanet.alwaysThrottled).1 (by decide)⟩

/-- C3: external-file resolution over the local repository succeeds
exactly when the referenced file exists in the document's folder, in
its data subfolder, or in the corpus-root DataFiles folder; the
candidates are tried in that order and the first existing one is
returned; and when resolution fails for an extracted reference, the
document is rejected with reason missing_external_files. -/
theorem c3_resolution_three_locations (fs : List (List Char)) (repoDir folderPath fname : List Char) :
    ((DownloadSwmm.find_external_file_local fs repoDir folderPath fname).isSome
      ↔ (Py.joinPath (Py.joinPath repoDir folderPath) fname ∈ fs
          ∨ Py.joinPath (Py.joinPath (Py.joinPath repoDir folderPath) "data".data) fname ∈ fs
          ∨ Py.joinPath (Py.joinPath repoDir "DataFiles".data) fname ∈ fs))
    ∧ (Py.joinPath (Py.joinPath repoDir folderPath) fname ∈ fs →
        DownloadSwmm.find_external_file_local fs repoDir folderPath fname
          = some (Py.joinPath (Py.joinPath repoDir folderPath) fname))
    ∧ (Py.joinPath (Py.joinPath repoDir folderPath) fname ∉ fs →
        Py.joinPath (Py.joinPath (Py.joinPath repoDir folderPath) "data".data) fname ∈ fs →
        DownloadSwmm.find_external_file_local fs repoDir folderPath fname
          = some (Py.joinPath (Py.joinPath (Py.joinPath repoDir folderPath) "data".data) fname))
    ∧ (Py.joinPath (Py.joinPath repoDir folderPath) fname ∉ fs →
        Py.joinPath (Py.joinPath (Py.joinPath repoDir folderPath) "data".data) fname ∉ fs →
        Py.joinPath (Py.joinPath repoDir "DataFiles".data) fname ∈ fs →
        DownloadSwmm.find_external_file_local fs repoDir folderPath fname
          = some (Py.joinPath (Py.joinPath repoDir "DataFiles".data) fname))
    ∧ (∀ content, fname ∈ DownloadSwmm.parse_swmm_for_external_files content →
        DownloadSwmm.find_external_file_local fs repoDir folderPath fname = none →
        ∃ ms, DownloadSwmm.process_inp_file_parallel fs repoDir folderPath content
              = .rejectedMissing ms
          ∧ fname ∈ ms) := by
  refine ⟨?_, ?_, ?_, ?_, ?_⟩
  · unfold DownloadSwmm.find_external_file_local
    by_cases h1 : Py.joinPath (Py.joinPath repoDir folderPath) fname ∈ fs
    · simp [h1]
    · by_cases h2 : Py.joinPath (Py.joinPath (Py.joinPath repoDir folderPath) "data".data) fname ∈ fs
      · simp [h1, h2]
      · by_cases h3 : Py.joinPath (Py.joinPath repoDir "DataFiles".data) fname ∈ fs
        · simp [h1, h2, h3]
        · simp [h1, h2, h3]
  · intro h1
    unfold DownloadSwmm.find_external_file_local
    simp [h1]
  · intro h1 h2
    unfold DownloadSwmm.find_external_file_local
    simp [h1, h2]
  · intro h1 h2 h3
    unfold DownloadSwmm.find_external_file_local
    simp [h1, h2, h3]
  · intro content hmem hnone
    have hmiss : fname ∈ (DownloadSwmm.parse_swmm_for_external_files content).filter
        (fun f => (DownloadSwmm.find_external_file_local fs repoDir folderPath f).isNone) := by
      rw [List.mem_filter]
      exact ⟨hmem, by simp [hnone]⟩
    refine ⟨_, ?_, hmiss⟩
    unfold DownloadSwmm.process_inp_file_parallel
    have hrne : (DownloadSwmm.parse_swmm_for_external_files content).isEmpty = false := by
      cases hc : DownloadSwmm.parse_swmm_for_external_files content
      · rw [hc] at hmem
        simp at hmem
      · simp
    have hmne : ((DownloadSwmm.parse_swmm_for_external_files content).filter
        (fun f => (DownloadSwmm.find_external_file_local fs repoDir folderPath f).isNone)).isEmpty
          = false := by
      cases hc : (DownloadSwmm.parse_swmm_for_external_files content).filter
          (fun f => (DownloadSwmm.find_external_file_local fs repoDir folderPath f).isNone)
      · rw [hc] at hmiss
        simp at hmiss
      · simp
    simp [hrne, hmne]

/-- C3 (witness): resolution at a concrete layout — the referenced file
exists only in the data subfolder and is found there; a missing
reference makes the concrete document rejected. -/
theorem c3_resolution_three_locations_witness :
    (Py.joinPath (Py.joinPath "repo".data "ex1".data) "rain.dat".data
        ∉ ["repo/ex1/data/rain.dat".data]
      → Py.joinPath (Py.joinPath (Py.joinPath "repo".data "ex1".data) "data".data) "rain.dat".data
          ∈ ["repo/ex1/data/rain.dat".data]
      → DownloadSwmm.find_external_file_local ["repo/ex1/data/rain.dat".data] "repo".data "ex1".data
          "rain.dat".data
          = some (Py.joinPath (Py.joinPath (Py.joinPath "repo".data "ex1".data) "data".data)
              "rain.dat".data))
    ∧ (∃ ms, DownloadSwmm.process_inp_file_parallel [] "repo".data "ex1".data
            "[OPTIONS]\nFILE gone.dat\n".data = .rejectedMissing ms
        ∧ "gone.dat".data ∈ ms) :=
  ⟨(c3_resolution_three_locations ["repo/ex1/data/rain.dat".data] "repo".data "ex1".data
      "rain.dat".data).2.2.1,
   (c3_resolution_three_locations [] "repo".data "ex1".data "gone.dat".data).2.2.2.2
     "[OPTIONS]\nFILE gone.dat\n".data (by decide) (by decide)⟩

/-- C4: when a document has a [BACKDROP] span and every FILE-pattern
match capturing a given reference starts inside that span, the
reference is excluded from the extracted set, so no resolution is
ever attempted for it: it cannot appear among the missing files of
any filesystem, hence cannot cause an external-file rejection, even
when it exists nowhere. -/
theorem c4_backdrop_excluded (content : List Char) (bs be : Nat) (f : List Char)
    (hspan : DownloadSwmm.backdropSpan content = some (bs, be))
    (hin : ∀ m ∈ DownloadSwmm.fileMatches content, m.2 = f → bs ≤ m.1 ∧ m.1 < be) :
    f ∉ DownloadSwmm.parse_swmm_for_external_files content
    ∧ ∀ fs repoDir folderPath,
        f ∉ (DownloadSwmm.parse_swmm_for_external_files content).filter
            (fun g => (DownloadSwmm.find_external_file_local fs repoDir folderPath g).isNone) := by
  have hnot : f ∉ DownloadSwmm.parse_swmm_for_external_files content := by
    intro hmem
    unfold DownloadSwmm.parse_swmm_for_external_files at hmem
    rw [List.mem_map] at hmem
    rcases hmem with ⟨m, hm, hsnd⟩
    rw [List.mem_filter] at hm
    rcases hm with ⟨hmm, hkeep⟩
    have hio := hin m hmm hsnd
    unfold DownloadSwmm.keepMatch at hkeep
    rw [hspan] at hkeep
    simp only [Bool.and_eq_true, Bool.not_eq_true'] at hkeep
    rcases hkeep with ⟨hk, _⟩
    rw [Bool.and_eq_false_iff] at hk
    rcases hk with hk | hk
    · exact absurd hio.1 (by simpa using hk)
    · exact absurd hio.2 (by simpa using hk)
  refine ⟨hnot, fun fs repoDir folderPath hmem => ?_⟩
  rw [List.mem_filter] at hmem
  exact hnot hmem.1

/-- C4 (witness): a backdrop image reference in a concrete document with
a [BACKDROP] section and no existing file anywhere is never
extracted. -/
theorem c4_backdrop_excluded_witness :
    DownloadSwmm.backdropSpan "[BACKDROP]\nFILE \"pic.bmp\"\n".data = some (0, 26)
    ∧ "pic.bmp".data ∉ DownloadSwmm.parse_swmm_for_external_files
        "[BACKDROP]\nFILE \"pic.bmp\"\n".data :=
  ⟨by decide,
   (c4_backdrop_excluded "[BACKDROP]\nFILE \"pic.bmp\"\n".data 0 26 "pic.bmp".data
      (by decide) (by decide)).1⟩

namespace DownloadSwmm

/-- Membership of an undefined-time-series finding in the validator
output reduces to the raingage reference check: no other rule emits
that constructor. -/
lemma mem_validate_undefinedTs (content : List Char) (n : List Char) :
    SwmmIssue.undefinedTimeseries n ∈ validate_swmm_file content
      ↔ n ∈ undefinedTsRefs content := by
  unfold validate_swmm_file
  simp only [List.mem_append, List.mem_map]
  constructor
  · rintro (((((h | h) | h) | h) | h) | h)
    · split at h <;> simp_all
    · split at h <;> simp_all
    · rcases h with ⟨a, _, ha⟩
      exact absurd ha (by simp)
    · rcases h with ⟨a, ha, hae⟩
      rcases SwmmIssue.undefinedTimeseries.inj hae with rfl
      exact ha
    · rw [sectionOrderIssues_nil] at h
      simp at h
    · split at h <;> simp_all
  · intro h
    exact Or.inl (Or.inl (Or.inr ⟨n, h, rfl⟩))

end DownloadSwmm

/-- C6: for a document with both a [RAINGAGES] and a [TIMESERIES]
section in which some gauge line cites the time-series name n, the
undefined-reference finding for n is emitted exactly when n is
absent from the document-wide set of defined time-series names (the
first token of every non-blank, non-comment line of the time-series
chunk); the right side is position-independent, so the verdict does
not depend on whether the defining section precedes or follows the
citing line. -/
theorem c6_undefined_reference_iff (content n : List Char)
    (hrg : Py.containsSub "[RAINGAGES]".data content = true)
    (hts : Py.containsSub "[TIMESERIES]".data content = true)
    (hcite : ∃ line ∈ Py.splitNl (DownloadSwmm.sectionChunk "[RAINGAGES]".data content),
        Py.containsSub DownloadSwmm.tsWord (Py.upperL line) = true
        ∧ Py.startsSemi (Py.pyStrip line) = false
        ∧ n ∈ DownloadSwmm.citeScan (Py.pySplit line)) :
    DownloadSwmm.SwmmIssue.undefinedTimeseries n ∈ DownloadSwmm.validate_swmm_file content
      ↔ n ∉ DownloadSwmm.definedTs content := by
  rw [DownloadSwmm.mem_validate_undefinedTs]
  unfold DownloadSwmm.undefinedTsRefs
  rw [hrg, hts]
  simp only [Bool.and_self, if_true]
  constructor
  · intro h
    rw [List.mem_flatMap] at h
    rcases h with ⟨line, hl, hin⟩
    split at hin
    · rw [List.mem_filter] at hin
      intro hmem
      have h2 := hin.2
      rw [Bool.not_eq_true', ← Bool.not_eq_true] at h2
      exact h2 (List.elem_iff.mpr hmem)
    · simp at hin
  · intro hnot
    rcases hcite with ⟨line, hl, hw, hs, hcs⟩
    rw [List.mem_flatMap]
    refine ⟨line, hl, ?_⟩
    rw [if_pos (by rw [hw, hs]; rfl)]
    rw [List.mem_filter]
    refine ⟨hcs, ?_⟩
    rw [Bool.not_eq_true']
    cases hb : (DownloadSwmm.definedTs content).contains n
    · rfl
    · exact absurd (List.elem_iff.mp hb) hnot

/-- C6 (witness): a concrete document in which the time-series section
follows the citing gauge section; the cited name TS9 is undefined
and flagged, while membership of the defined set decides it. -/
theorem c6_undefined_reference_iff_witness :
    Py.containsSub "[RAINGAGES]".data
        "[RAINGAGES]\nG1 INT 1:00 1.0 TIMESERIES TS9\n[TIMESERIES]\nTS1 0:00 0.5\n".data = true
    ∧ (DownloadSwmm.SwmmIssue.undefinedTimeseries "TS9".data
          ∈ DownloadSwmm.validate_swmm_file
            "[RAINGAGES]\nG1 INT 1:00 1.0 TIMESERIES TS9\n[TIMESERIES]\nTS1 0:00 0.5\n".data
        ↔ "TS9".data ∉ DownloadSwmm.definedTs
            "[RAINGAGES]\nG1 INT 1:00 1.0 TIMESERIES TS9\n[TIMESERIES]\nTS1 0:00 0.5\n".data) :=
  ⟨by decide,
   c6_undefined_reference_iff
     "[RAINGAGES]\nG1 INT 1:00 1.0 TIMESERIES TS9\n[TIMESERIES]\nTS1 0:00 0.5\n".data
     "TS9".data (by decide) (by decide)
     ⟨"G1 INT 1:00 1.0 TIMESERIES TS9".data, by decide, by decide, by decide, by decide⟩⟩

namespace ValidateInput

open Py

/-- The detector for one invalid-parameter finding at a given line. -/
def invalidAt (i : Nat) (x : VIssue) : Bool :=
  (x.itype == VType.invalid_parameter) && (x.line == i)

/-- Every external-file finding of a line carries that line's number. -/
lemma fileIssues_line (i : Nat) (line : List Char) :
    ∀ x ∈ fileIssues i line, x.line = i := by
  intro x hx
  unfold fileIssues at hx
  (repeat' split at hx) <;> simp_all

/-- Every infiltration finding of a line carries that line's number. -/
lemma infilIssues_line (stH : VState) (i : Nat) (s : List Char) :
    ∀ x ∈ infilIssues stH i s, x.line = i := by
  intro x hx
  unfold infilIssues at hx
  (repeat' split at hx) <;> simp_all

/-- Every reference finding of a line carries that line's number. -/
lemma rgIssues_line (stH : VState) (i : Nat) (line s : List Char) :
    ∀ x ∈ rgIssues stH i line s, x.line = i := by
  intro x hx
  unfold rgIssues at hx
  (repeat' split at hx) <;> simp_all

/-- Every issue a line contributes carries that line's number. -/
lemma lineIssues_line_eq (st : VState) (i : Nat) (l : List Char) :
    ∀ x ∈ lineIssues st i l, x.line = i := by
  intro x hx
  unfold lineIssues at hx
  split at hx
  · simp at hx
  · rcases List.mem_append.mp hx with h | h
    · rcases List.mem_append.mp h with h | h
      · exact fileIssues_line i l x h
      · exact infilIssues_line _ i _ x h
    · exact rgIssues_line _ i l _ x h

/-- Issues of the line loop starting at index i come from lines at or
after i. -/
lemma runLines_line_lt (ls : List (List Char)) :
    ∀ (st : VState) (i : Nat), ∀ x ∈ runLines st i ls, i ≤ x.line ∧ x.line < i + ls.length := by
  induction ls with
  | nil =>
    intro st i x hx
    simp [runLines] at hx
  | cons l rest ih =>
    intro st i x hx
    unfold runLines at hx
    rcases List.mem_append.mp hx with h | h
    · have := lineIssues_line_eq st i l x h
      simp [this]
    · have := ih (lineState st l) (i + 1) x h
      constructor
      · omega
      · simpa [Nat.add_assoc, Nat.add_comm 1 rest.length] using this.2

/-- The line loop distributes over concatenation of line blocks. -/
lemma runLines_append (as bs : List (List Char)) :
    ∀ (st : VState) (i : Nat),
      runLines st i (as ++ bs)
        = runLines st i as ++ runLines (as.foldl lineState st) (i + as.length) bs := by
  induction as with
  | nil =>
    intro st i
    simp [runLines]
  | cons a rest ih =>
    intro st i
    show lineIssues st i a ++ runLines (lineState st a) (i + 1) (rest ++ bs)
        = (lineIssues st i a ++ runLines (lineState st a) (i + 1) rest)
          ++ runLines (List.foldl lineState (lineState st a) rest) (i + (rest.length + 1)) bs
    rw [ih (lineState st a) (i + 1), List.append_assoc]
    have harith : i + 1 + rest.length = i + (rest.length + 1) := by omega
    rw [harith]

/-- The final section-order finding never counts as an invalid-parameter
one. -/
lemma countP_invalidAt_finalOrderCheck (lines : List (List Char)) (i : Nat) :
    List.countP (invalidAt i) (finalOrderCheck lines) = 0 := by
  unfold finalOrderCheck
  split
  · simp [invalidAt]
  · simp

end ValidateInput

namespace ValidateInput

open Py

/-- The external-file check never produces an invalid-parameter
finding. -/
lemma countP_invalidAt_fileIssues (j i : Nat) (line : List Char) :
    List.countP (invalidAt j) (fileIssues i line) = 0 := by
  unfold fileIssues
  (repeat' split) <;> simp [invalidAt]

/-- The reference check never produces an invalid-parameter finding. -/
lemma countP_invalidAt_rgIssues (j : Nat) (stH : VState) (i : Nat) (line s : List Char) :
    List.countP (invalidAt j) (rgIssues stH i line s) = 0 := by
  unfold rgIssues
  (repeat' split) <;> simp [invalidAt]

/-- Counting invalid-parameter findings at the row's own line over the
whole validator output reduces to the row's infiltration check. -/
lemma countP_invalidAt_reduction (pre suff : List (List Char)) (row : List Char)
    (hnb : (pyStrip row).isEmpty = false)
    (hnc : startsSemi (pyStrip row) = false) :
    List.countP (invalidAt (pre.length + 1)) (validateFromLines (pre ++ row :: suff))
      = List.countP (invalidAt (pre.length + 1))
          (infilIssues (headerUpd (stateAfter pre) (pyStrip row)) (pre.length + 1)
            (pyStrip row)) := by
  unfold validateFromLines
  rw [List.countP_append, countP_invalidAt_finalOrderCheck, Nat.add_zero]
  rw [runLines_append pre (row :: suff) vInit 1]
  rw [List.countP_append]
  have hpre0 : List.countP (invalidAt (pre.length + 1)) (runLines vInit 1 pre) = 0 := by
    rw [List.countP_eq_zero]
    intro x hx
    have hb := runLines_line_lt pre vInit 1 x hx
    unfold invalidAt
    simp only [Bool.and_eq_true, beq_iff_eq, not_and]
    intro _ hline
    omega
  rw [hpre0, Nat.zero_add]
  have hstep : runLines (List.foldl lineState vInit pre) (1 + pre.length) (row :: suff)
      = lineIssues (List.foldl lineState vInit pre) (1 + pre.length) row
        ++ runLines (lineState (List.foldl lineState vInit pre) row)
            (1 + pre.length + 1) suff := rfl
  rw [hstep, List.countP_append]
  have hsuf0 : List.countP (invalidAt (pre.length + 1))
      (runLines (lineState (List.foldl lineState vInit pre) row) (1 + pre.length + 1) suff)
        = 0 := by
    rw [List.countP_eq_zero]
    intro x hx
    have hb := runLines_line_lt suff _ _ x hx
    unfold invalidAt
    simp only [Bool.and_eq_true, beq_iff_eq, not_and]
    intro _ hline
    omega
  rw [hsuf0, Nat.add_zero]
  have hidx : 1 + pre.length = pre.length + 1 := by omega
  rw [hidx]
  show List.countP (invalidAt (pre.length + 1))
      (lineIssues (stateAfter pre) (pre.length + 1) row) = _
  unfold lineIssues
  rw [hnb, hnc]
  simp only [Bool.or_self, Bool.false_eq_true, if_false]
  rw [List.countP_append, List.countP_append]
  rw [countP_invalidAt_fileIssues, countP_invalidAt_rgIssues]
  omega

end ValidateInput

/-- C5: for a row of the infiltration section (non-blank, non-comment,
scanned under current section INFILTRATION): when the row has at
least four whitespace-separated fields and its 4th field parses as a
float strictly above 1.0, the validator emits exactly one
invalid-parameter error citing that row's 1-based line number; when
the row has fewer than four fields, or its 4th field does not parse
as a float, no invalid-parameter finding cites that line. -/
theorem c5_infiltration_rule (pre suff : List (List Char)) (row : List Char)
    (hsec : (ValidateInput.headerUpd (ValidateInput.stateAfter pre) (Py.pyStrip row)).cur
        = some "INFILTRATION".data)
    (hnb : (Py.pyStrip row).isEmpty = false)
    (hnc : Py.startsSemi (Py.pyStrip row) = false) :
    ((4 ≤ (Py.pySplit (Py.pyStrip row)).length
        ∧ Py.startsSemi ((Py.pySplit (Py.pyStrip row)).getD 0 []) = false
        ∧ ∃ v, Py.pyFloat ((Py.pySplit (Py.pyStrip row)).getD 3 []) = some v
            ∧ Py.pyFloatGtOne v = true) →
      List.countP (ValidateInput.invalidAt (pre.length + 1))
        (ValidateInput.validateFromLines (pre ++ row :: suff)) = 1)
    ∧ (((Py.pySplit (Py.pyStrip row)).length < 4
        ∨ Py.pyFloat ((Py.pySplit (Py.pyStrip row)).getD 3 []) = none) →
      List.countP (ValidateInput.invalidAt (pre.length + 1))
        (ValidateInput.validateFromLines (pre ++ row :: suff)) = 0) := by
  rw [ValidateInput.countP_invalidAt_reduction pre suff row hnb hnc]
  constructor
  · rintro ⟨h4, h0, v, hv, hgt⟩
    unfold ValidateInput.infilIssues
    rw [if_pos hsec]
    have hcond : ((Py.pySplit (Py.pyStrip row)).length ≥ 4
        && !Py.startsSemi ((Py.pySplit (Py.pyStrip row)).getD 0 [])) = true := by
      rw [h0]
      simpa using h4
    rw [hcond]
    simp only [if_true]
    rw [hv]
    simp [hgt, ValidateInput.invalidAt]
  · intro h
    unfold ValidateInput.infilIssues
    rw [if_pos hsec]
    rcases h with h | h
    · have hcond : ((Py.pySplit (Py.pyStrip row)).length ≥ 4
          && !Py.startsSemi ((Py.pySplit (Py.pyStrip row)).getD 0 [])) = false := by
        have : decide ((Py.pySplit (Py.pyStrip row)).length ≥ 4) = false := by
          simpa using h
        rw [this]
        rfl
      rw [hcond]
      simp
    · rw [h]
      split <;> simp

/-- C5 (witness): a concrete infiltration row J1 3.0 0.5 1.5 under the
[INFILTRATION] header yields exactly one invalid-parameter error at
its line number 2. -/
theorem c5_infiltration_rule_witness :
    (ValidateInput.headerUpd (ValidateInput.stateAfter ["[INFILTRATION]".data])
        (Py.pyStrip "J1 3.0 0.5 1.5".data)).cur = some "INFILTRATION".data
    ∧ List.countP (ValidateInput.invalidAt 2)
        (ValidateInput.validateFromLines
          (["[INFILTRATION]".data] ++ "J1 3.0 0.5 1.5".data :: [])) = 1 :=
  ⟨by decide,
   (c5_infiltration_rule ["[INFILTRATION]".data] [] "J1 3.0 0.5 1.5".data (by decide) (by decide)
      (by decide)).1 ⟨by decide, by decide, ⟨.num false 15 1 0, by decide, by decide⟩⟩⟩

/-- C9 (counterexample): a corpus with one document that fails
validation: the first run rejects it and stages nothing, so the
second run's discovery step finds it again (its staged copy does not
exist) and processes one document — not zero as the claim states —
although it still copies nothing. -/
theorem c9_counterexample :
    (DownloadSwmm.runCurator [] "repo".data
        [⟨"f".data, "m.inp".data, "JUNK".data⟩]
        (DownloadSwmm.runCurator [] "repo".data
          [⟨"f".data, "m.inp".data, "JUNK".data⟩] []).staged).processed = 1
    ∧ (DownloadSwmm.runCurator [] "repo".data
        [⟨"f".data, "m.inp".data, "JUNK".data⟩]
        (DownloadSwmm.runCurator [] "repo".data
          [⟨"f".data, "m.inp".data, "JUNK".data⟩] []).staged).copied = 0 := by
  decide

namespace DownloadSwmm

/-- For a corpus with distinct staged destinations, a destination is
staged by the first run exactly when its document was accepted. -/
lemma mem_staged_iff (fs : List (List Char)) (repoDir : List Char) (docs : List CDoc)
    (hnd : (docs.map outPath).Nodup) (d : CDoc) (hd : d ∈ docs) :
    outPath d ∈ (docs.filter (docAccepted fs repoDir)).map outPath
      ↔ docAccepted fs repoDir d = true := by
  constructor
  · intro h
    rw [List.mem_map] at h
    rcases h with ⟨e, he, hee⟩
    rw [List.mem_filter] at he
    have : e = d := List.inj_on_of_nodup_map hnd he.1 hd hee
    rw [← this]
    exact he.2
  · intro h
    rw [List.mem_map]
    exact ⟨d, List.mem_filter.mpr ⟨hd, h⟩, rfl⟩

end DownloadSwmm

/-- C9 (amended): rerunning the curator on an unchanged corpus (with
pairwise-distinct staged destinations) copies nothing and leaves the
staged set unchanged, and every document staged by the first run is
skipped by the second run's discovery step; however the second run
re-processes exactly the documents the first run rejected, so the
number it reports as processed is the first run's rejection count,
not unconditionally zero. -/
theorem c9_idempotence_amended (fs : List (List Char)) (repoDir : List Char)
    (docs : List DownloadSwmm.CDoc)
    (hnd : (docs.map DownloadSwmm.outPath).Nodup) :
    (DownloadSwmm.runCurator fs repoDir docs
        (DownloadSwmm.runCurator fs repoDir docs []).staged).copied = 0
    ∧ (DownloadSwmm.runCurator fs repoDir docs
        (DownloadSwmm.runCurator fs repoDir docs []).staged).staged
        = (DownloadSwmm.runCurator fs repoDir docs []).staged
    ∧ (DownloadSwmm.runCurator fs repoDir docs
        (DownloadSwmm.runCurator fs repoDir docs []).staged).processed
        = (docs.filter (fun d => !DownloadSwmm.docAccepted fs repoDir d)).length
    ∧ ∀ d ∈ docs, DownloadSwmm.outPath d ∈ (DownloadSwmm.runCurator fs repoDir docs []).staged →
        d ∉ DownloadSwmm.find_inp_files_local docs
            (DownloadSwmm.runCurator fs repoDir docs []).staged := by
  have htodo1 : DownloadSwmm.find_inp_files_local docs [] = docs := by
    unfold DownloadSwmm.find_inp_files_local
    rw [List.filter_eq_self]
    intro d _
    rfl
  have hstaged1 : (DownloadSwmm.runCurator fs repoDir docs []).staged
      = (docs.filter (DownloadSwmm.docAccepted fs repoDir)).map DownloadSwmm.outPath := by
    unfold DownloadSwmm.runCurator
    rw [htodo1]
    simp
  have htodo2 : DownloadSwmm.find_inp_files_local docs
      (DownloadSwmm.runCurator fs repoDir docs []).staged
        = docs.filter (fun d => !DownloadSwmm.docAccepted fs repoDir d) := by
    unfold DownloadSwmm.find_inp_files_local
    apply List.filter_congr
    intro d hd
    rw [hstaged1]
    cases hacc : DownloadSwmm.docAccepted fs repoDir d
    · have : ¬ DownloadSwmm.outPath d
          ∈ (docs.filter (DownloadSwmm.docAccepted fs repoDir)).map DownloadSwmm.outPath := by
        rw [DownloadSwmm.mem_staged_iff fs repoDir docs hnd d hd, hacc]
        simp
      simp [List.elem_iff, this]
    · have : DownloadSwmm.outPath d
          ∈ (docs.filter (DownloadSwmm.docAccepted fs repoDir)).map DownloadSwmm.outPath :=
        (DownloadSwmm.mem_staged_iff fs repoDir docs hnd d hd).mpr hacc
      simp [List.elem_iff, this]
  have hacc2 : (DownloadSwmm.find_inp_files_local docs
      (DownloadSwmm.runCurator fs repoDir docs []).staged).filter
        (DownloadSwmm.docAccepted fs repoDir) = [] := by
    rw [htodo2, List.filter_filter]
    have : ∀ d ∈ docs, (DownloadSwmm.docAccepted fs repoDir d
        && !DownloadSwmm.docAccepted fs repoDir d) = (fun _ => false) d := by
      intro d _
      simp
    rw [List.filter_congr this, List.filter_false]
  have hrun : ∀ st : List (List Char), DownloadSwmm.runCurator fs repoDir docs st
      = { staged := st ++ ((DownloadSwmm.find_inp_files_local docs st).filter
            (DownloadSwmm.docAccepted fs repoDir)).map DownloadSwmm.outPath
          processed := (DownloadSwmm.find_inp_files_local docs st).length
          copied := ((DownloadSwmm.find_inp_files_local docs st).filter
            (DownloadSwmm.docAccepted fs repoDir)).length } := fun st => rfl
  refine ⟨?_, ?_, ?_, ?_⟩
  · rw [hrun ((DownloadSwmm.runCurator fs repoDir docs []).staged)]
    simp only
    rw [hacc2]
    rfl
  · rw [hrun ((DownloadSwmm.runCurator fs repoDir docs []).staged)]
    simp only
    rw [hacc2]
    simp
  · rw [hrun ((DownloadSwmm.runCurator fs repoDir docs []).staged)]
    simp only
    rw [htodo2]
  · intro d hd hmem
    intro hcontra
    unfold DownloadSwmm.find_inp_files_local at hcontra
    rw [List.mem_filter] at hcontra
    have h2 := hcontra.2
    simp only [Bool.not_eq_true'] at h2
    rw [← Bool.not_eq_true] at h2
    exact h2 (List.elem_iff.mpr hmem)

/-- C9 (witness): the amended statement at a one-document corpus whose
document is accepted: the second run copies nothing, keeps the
staged set, and processes zero documents. -/
theorem c9_idempotence_amended_witness :
    ((([⟨"f".data, "m.inp".data, "[OPTIONS]\n[JUNCTIONS]\nJ1 0 0\n".data⟩]
        : List DownloadSwmm.CDoc).map DownloadSwmm.outPath).Nodup)
    ∧ (DownloadSwmm.runCurator [] "repo".data
        [⟨"f".data, "m.inp".data, "[OPTIONS]\n[JUNCTIONS]\nJ1 0 0\n".data⟩]
        (DownloadSwmm.runCurator [] "repo".data
          [⟨"f".data, "m.inp".data, "[OPTIONS]\n[JUNCTIONS]\nJ1 0 0\n".data⟩] []).staged).copied
        = 0 :=
  ⟨by decide,
   (c9_idempotence_amended [] "repo".data
      [⟨"f".data, "m.inp".data, "[OPTIONS]\n[JUNCTIONS]\nJ1 0 0\n".data⟩] (by decide)).1⟩

namespace Py

/-- takeWhile runs through a block all of whose characters satisfy the
predicate. -/
lemma takeWhile_append_all (p : Char → Bool) (xs ys : List Char)
    (h : ∀ x ∈ xs, p x = true) :
    (xs ++ ys).takeWhile p = xs ++ ys.takeWhile p := by
  induction xs with
  | nil => simp
  | cons x xr ih =>
    simp only [List.cons_append, List.takeWhile_cons]
    rw [h x (by simp)]
    simp only [if_true]
    rw [ih (fun y hy => h y (by simp [hy]))]

/-- Both FILE patterns need an F (of either case) at the match start. -/
lemma fileHead_false (c : Char) (rest : List Char) (h : c.toUpper ≠ 'F') :
    fileHead (c :: rest) = false := by
  cases rest with
  | nil => rfl
  | cons c2 r2 =>
    cases r2 with
    | nil => rfl
    | cons c3 r3 =>
      cases r3 with
      | nil => rfl
      | cons c4 r4 =>
        simp [fileHead, charCI, h]

/-- The unquoted pattern cannot match at a non-F character. -/
lemma tryU_none (c : Char) (rest : List Char) (h : c.toUpper ≠ 'F') :
    tryU (c :: rest) = none := by
  unfold tryU
  rw [fileHead_false c rest h]
  rfl

/-- The quoted pattern cannot match at a non-F character. -/
lemma tryQ_none (c : Char) (rest : List Char) (h : c.toUpper ≠ 'F') :
    tryQ (c :: rest) = none := by
  unfold tryQ
  rw [fileHead_false c rest h]
  rfl

/-- One scan step at a position where the pattern fails. -/
lemma finditer_cons_none (try? : List Char → Option (Nat × List Char)) (c : Char)
    (rest : List Char) (p : Nat) (h : try? (c :: rest) = none) :
    finditer try? (c :: rest) p 0 = finditer try? rest (p + 1) 0 := by
  conv_lhs => rw [finditer.eq_def]
  simp only [h]

/-- One scan step at a position where the pattern matches. -/
lemma finditer_cons_some (try? : List Char → Option (Nat × List Char)) (c : Char)
    (rest : List Char) (p len : Nat) (grp : List Char)
    (h : try? (c :: rest) = some (len, grp)) :
    finditer try? (c :: rest) p 0 = (p, grp) :: finditer try? rest (p + 1) (len - 1) := by
  conv_lhs => rw [finditer.eq_def]
  simp only [h]

/-- Scanning a block free of F characters yields no matches and only
shifts the offset. -/
lemma finditer_shift (try? : List Char → Option (Nat × List Char))
    (htry : ∀ c rest, c.toUpper ≠ 'F' → try? (c :: rest) = none)
    (a : List Char) (hF : ∀ c ∈ a, c.toUpper ≠ 'F') :
    ∀ (s : List Char) (p : Nat),
      finditer try? (a ++ s) p 0 = finditer try? s (p + a.length) 0 := by
  induction a with
  | nil =>
    intro s p
    simp
  | cons c arest ih =>
    intro s p
    simp only [List.cons_append]
    rw [finditer_cons_none try? c (arest ++ s) p (htry c (arest ++ s) (hF c (by simp)))]
    rw [ih (fun y hy => hF y (by simp [hy])) s (p + 1)]
    have harith : p + 1 + arest.length = p + (c :: arest).length := by
      simp [List.length_cons]
      omega
    rw [harith]

end Py

namespace Py

/-- The unquoted pattern at the head of the region FILE "name"\n...
captures the quote-wrapped token: the character class [^\s]+ runs
through the opening quote, the name and the closing quote and stops
at the newline. -/
lemma tryU_region (name b : List Char)
    (hns : ∀ c ∈ name, pyIsSpace c = false) :
    tryU ('F' :: 'I' :: 'L' :: 'E' :: ' ' :: dq :: (name ++ dq :: '\n' :: b))
      = some (7 + name.length, dq :: (name ++ [dq])) := by
  have htok : ((dq :: (name ++ dq :: '\n' :: b)).takeWhile (fun c => !pyIsSpace c))
      = dq :: (name ++ [dq]) := by
    rw [List.takeWhile_cons]
    simp only [show (!pyIsSpace dq) = true from by decide, if_true]
    rw [takeWhile_append_all _ name _ (fun x hx => by simp [hns x hx])]
    rw [List.takeWhile_cons]
    simp only [show (!pyIsSpace dq) = true from by decide, if_true]
    rw [List.takeWhile_cons]
    simp [show (!pyIsSpace '\n') = false from by decide]
  have hws : ((' ' :: dq :: (name ++ dq :: '\n' :: b)).takeWhile pyIsSpace) = [' '] := by
    rw [List.takeWhile_cons]
    simp only [show pyIsSpace ' ' = true from rfl, if_true]
    rw [List.takeWhile_cons]
    simp [show pyIsSpace dq = false from by decide]
  unfold tryU
  rw [if_pos (show fileHead ('F' :: 'I' :: 'L' :: 'E' :: ' ' :: dq :: (name ++ dq :: '\n' :: b))
      = true from rfl)]
  simp only []
  rw [show ('F' :: 'I' :: 'L' :: 'E' :: ' ' :: dq :: (name ++ dq :: '\n' :: b)).drop 4
      = ' ' :: dq :: (name ++ dq :: '\n' :: b) from rfl]
  rw [hws]
  simp only [List.isEmpty_cons, Bool.false_eq_true, if_false, List.length_cons,
    List.length_nil, List.drop_succ_cons, List.drop_zero]
  rw [htok]
  simp only [List.isEmpty_cons, Bool.false_eq_true, if_false]
  have : 4 + 1 + (dq :: (name ++ [dq])).length = 7 + name.length := by
    simp
    omega
  rw [this]

/-- The quoted pattern at the head of the region FILE "name"\n...
captures the bare name between the quotes. -/
lemma tryQ_region (name b : List Char) (hne : name ≠ [])
    (hnq : ∀ c ∈ name, notQuote c = true) :
    tryQ ('F' :: 'I' :: 'L' :: 'E' :: ' ' :: dq :: (name ++ dq :: '\n' :: b))
      = some (7 + name.length, name) := by
  have hws : ((' ' :: dq :: (name ++ dq :: '\n' :: b)).takeWhile pyIsSpace) = [' '] := by
    rw [List.takeWhile_cons]
    simp only [show pyIsSpace ' ' = true from rfl, if_true]
    rw [List.takeWhile_cons]
    simp [show pyIsSpace dq = false from by decide]
  have hgrp : ((name ++ dq :: '\n' :: b).takeWhile notQuote) = name := by
    rw [takeWhile_append_all _ name _ hnq]
    rw [List.takeWhile_cons]
    simp [show notQuote dq = false from by decide]
  unfold tryQ
  rw [if_pos (show fileHead ('F' :: 'I' :: 'L' :: 'E' :: ' ' :: dq :: (name ++ dq :: '\n' :: b))
      = true from rfl)]
  simp only []
  rw [show ('F' :: 'I' :: 'L' :: 'E' :: ' ' :: dq :: (name ++ dq :: '\n' :: b)).drop 4
      = ' ' :: dq :: (name ++ dq :: '\n' :: b) from rfl]
  rw [hws]
  simp only [List.isEmpty_cons, Bool.false_eq_true, if_false, List.length_cons,
    List.length_nil, List.drop_succ_cons, List.drop_zero]
  simp only [show notQuote dq = false from by decide, Bool.false_eq_true, if_false]
  rw [hgrp]
  have hgne : name.isEmpty = false := by
    cases name
    · exact absurd rfl hne
    · rfl
  rw [hgne]
  simp only [Bool.false_eq_true, if_false]
  rw [List.drop_left]
  simp only [show notQuote dq = false from by decide, Bool.false_eq_true, if_false]
  have : 4 + 1 + 1 + name.length + 1 = 7 + name.length := by omega
  rw [this]

end Py

namespace Py

/-- A string without a colon cannot contain the drive marker. -/
lemma containsSub_drive_false (l : List Char) (h : ':' ∉ l) :
    containsSub [':', '\\'] l = false := by
  induction l with
  | nil => rfl
  | cons c rest ih =>
    unfold containsSub
    have hc : ¬ (':' = c) := fun hc => h (by simp [hc.symm])
    have h1 : List.isPrefixOf [':', '\\'] (c :: rest) = false := by
      simp only [List.isPrefixOf, Bool.and_eq_false_iff]
      left
      simpa using hc
    rw [h1, ih (fun hm => h (by simp [hm]))]
    rfl

end Py

namespace DownloadSwmm

open Py

/-- The quote-wrapped token is never an absolute path: it starts with a
quote and, with no colon inside the name, holds no drive marker. -/
lemma isAbsoluteRef_quoted_false (name : List Char)
    (hcolon : ':' ∉ name) :
    isAbsoluteRef (dq :: (name ++ [dq])) = false := by
  have hmem : ':' ∉ dq :: (name ++ [dq]) := by
    simp only [List.mem_cons, List.mem_append, List.mem_singleton]
    rintro (h | h | h)
    · exact absurd h (by decide)
    · exact hcolon h
    · exact absurd h (by decide)
  unfold isAbsoluteRef
  rw [containsSub_drive_false _ hmem]
  cases name with
  | nil =>
    simp [show (decide (dq = '/')) = false from by decide,
      show (decide (dq = 'C')) = false from by decide]
  | cons n0 nt =>
    simp [show (decide (dq = '/')) = false from by decide,
      show (decide (dq = 'C')) = false from by decide]

/-- A relative quote- and colon-free name is never an absolute path. -/
lemma isAbsoluteRef_name_false (name : List Char)
    (hcolon : ':' ∉ name) (hhead : name.headD ' ' ≠ '/') :
    isAbsoluteRef name = false := by
  unfold isAbsoluteRef
  rw [containsSub_drive_false _ hcolon]
  cases name with
  | nil => rfl
  | cons n0 nt =>
    have h0 : (decide (n0 = '/')) = false := by
      simp only [List.headD_cons] at hhead
      simpa using hhead
    cases nt with
    | nil => simp [h0]
    | cons n1 ntt =>
      have h1 : (decide (n1 = ':')) = false := by
        have : n1 ≠ ':' := fun hc => hcolon (by simp [hc])
        simpa using this
      simp [h0, h1]

/-- Resolution of a token containing a quote character always fails
against a filesystem whose paths are quote-free. -/
lemma find_none_of_quote (fs : List (List Char)) (repoDir folderPath tok : List Char)
    (htok : dq ∈ tok) (hfs : ∀ p ∈ fs, dq ∉ p) :
    find_external_file_local fs repoDir folderPath tok = none := by
  unfold find_external_file_local
  have h1 : joinPath (joinPath repoDir folderPath) tok ∉ fs := fun hmem =>
    hfs _ hmem (by simp [joinPath, htok])
  have h2 : joinPath (joinPath (joinPath repoDir folderPath) "data".data) tok ∉ fs := fun hmem =>
    hfs _ hmem (by simp [joinPath, htok])
  have h3 : joinPath (joinPath repoDir "DataFiles".data) tok ∉ fs := fun hmem =>
    hfs _ hmem (by simp [joinPath, htok])
  simp [h1, h2, h3]

/-- Whenever some extracted reference fails to resolve, the verdict is
the missing-external-files rejection and that reference is listed. -/
lemma process_rejected_of_missing (fs : List (List Char)) (repoDir folderPath content tok : List Char)
    (hmem : tok ∈ parse_swmm_for_external_files content)
    (hnone : find_external_file_local fs repoDir folderPath tok = none) :
    ∃ ms, process_inp_file_parallel fs repoDir folderPath content = .rejectedMissing ms
      ∧ tok ∈ ms := by
  have hmiss : tok ∈ (parse_swmm_for_external_files content).filter
      (fun f => (find_external_file_local fs repoDir folderPath f).isNone) := by
    rw [List.mem_filter]
    exact ⟨hmem, by simp [hnone]⟩
  refine ⟨_, ?_, hmiss⟩
  unfold process_inp_file_parallel
  have hrne : (parse_swmm_for_external_files content).isEmpty = false := by
    cases hc : parse_swmm_for_external_files content
    · rw [hc] at hmem
      simp at hmem
    · simp
  have hmne : ((parse_swmm_for_external_files content).filter
      (fun f => (find_external_file_local fs repoDir folderPath f).isNone)).isEmpty = false := by
    cases hc : (parse_swmm_for_external_files content).filter
        (fun f => (find_external_file_local fs repoDir folderPath f).isNone)
    · rw [hc] at hmiss
      simp at hmiss
    · simp
  simp [hrne, hmne]

end DownloadSwmm

/-- C10 (amended): the double extraction is conditional on the unquoted
scanner reaching the quoted line's FILE keyword unconsumed — an
earlier F can start a match that swallows it (see the counterexample
below).  When the prefix before the FILE "name" line is F-free and
the document has no [BACKDROP] section, the extractor does add both
the bare name (from the quoted pattern) and the quote-wrapped token
(from the unquoted pattern, which matches the same text); since no
filesystem path contains a quote character, the quote-wrapped token
never resolves, so the document is rejected with reason
missing_external_files even though the named file itself is present,
and resolvable, in the document's own folder. -/
theorem c10_quoted_reference_always_rejected
    (a name b : List Char) (fs : List (List Char)) (repoDir folderPath : List Char)
    (hF : ∀ c ∈ a, c.toUpper ≠ 'F')
    (hne : name ≠ [])
    (hchars : ∀ c ∈ name, Py.pyIsSpace c = false ∧ c ≠ Py.dq ∧ c ≠ Py.sq ∧ c ≠ ':')
    (hhead : name.headD ' ' ≠ '/')
    (hbd : Py.containsSub DownloadSwmm.bdropHdr
        (Py.upperL (a ++ ('F' :: 'I' :: 'L' :: 'E' :: ' ' :: Py.dq ::
          (name ++ Py.dq :: '\n' :: b)))) = false)
    (hfs : ∀ p ∈ fs, Py.dq ∉ p)
    (hpresent : Py.joinPath (Py.joinPath repoDir folderPath) name ∈ fs) :
    name ∈ DownloadSwmm.parse_swmm_for_external_files
        (a ++ ('F' :: 'I' :: 'L' :: 'E' :: ' ' :: Py.dq :: (name ++ Py.dq :: '\n' :: b)))
    ∧ (Py.dq :: (name ++ [Py.dq])) ∈ DownloadSwmm.parse_swmm_for_external_files
        (a ++ ('F' :: 'I' :: 'L' :: 'E' :: ' ' :: Py.dq :: (name ++ Py.dq :: '\n' :: b)))
    ∧ DownloadSwmm.find_external_file_local fs repoDir folderPath name
        = some (Py.joinPath (Py.joinPath repoDir folderPath) name)
    ∧ ∃ ms, DownloadSwmm.process_inp_file_parallel fs repoDir folderPath
          (a ++ ('F' :: 'I' :: 'L' :: 'E' :: ' ' :: Py.dq :: (name ++ Py.dq :: '\n' :: b)))
          = .rejectedMissing ms
        ∧ (Py.dq :: (name ++ [Py.dq])) ∈ ms := by
  have hns : ∀ c ∈ name, Py.pyIsSpace c = false := fun c hc => (hchars c hc).1
  have hnq : ∀ c ∈ name, Py.notQuote c = true := by
    intro c hc
    unfold Py.notQuote
    simp [(hchars c hc).2.1, (hchars c hc).2.2.1]
  have hcolon : ':' ∉ name := fun hm => (hchars ':' hm).2.2.2 rfl
  have hspan : DownloadSwmm.backdropSpan
      (a ++ ('F' :: 'I' :: 'L' :: 'E' :: ' ' :: Py.dq :: (name ++ Py.dq :: '\n' :: b)))
        = none := by
    unfold DownloadSwmm.backdropSpan
    simp [hbd]
  have hQ : (a.length, name) ∈ Py.finditer Py.tryQ
      (a ++ ('F' :: 'I' :: 'L' :: 'E' :: ' ' :: Py.dq :: (name ++ Py.dq :: '\n' :: b))) 0 0 := by
    rw [Py.finditer_shift Py.tryQ Py.tryQ_none a hF _ 0]
    rw [Nat.zero_add]
    rw [Py.finditer_cons_some Py.tryQ 'F' _ a.length (7 + name.length) name
      (Py.tryQ_region name b hne hnq)]
    exact List.mem_cons_self _ _
  have hU : (a.length, Py.dq :: (name ++ [Py.dq])) ∈ Py.finditer Py.tryU
      (a ++ ('F' :: 'I' :: 'L' :: 'E' :: ' ' :: Py.dq :: (name ++ Py.dq :: '\n' :: b))) 0 0 := by
    rw [Py.finditer_shift Py.tryU Py.tryU_none a hF _ 0]
    rw [Nat.zero_add]
    rw [Py.finditer_cons_some Py.tryU 'F' _ a.length (7 + name.length) (Py.dq :: (name ++ [Py.dq]))
      (Py.tryU_region name b hns)]
    exact List.mem_cons_self _ _
  have hkeepN : DownloadSwmm.keepMatch (DownloadSwmm.backdropSpan
      (a ++ ('F' :: 'I' :: 'L' :: 'E' :: ' ' :: Py.dq :: (name ++ Py.dq :: '\n' :: b))))
        (a.length, name) = true := by
    rw [hspan]
    unfold DownloadSwmm.keepMatch
    simp [DownloadSwmm.isAbsoluteRef_name_false name hcolon hhead]
  have hkeepQ : DownloadSwmm.keepMatch (DownloadSwmm.backdropSpan
      (a ++ ('F' :: 'I' :: 'L' :: 'E' :: ' ' :: Py.dq :: (name ++ Py.dq :: '\n' :: b))))
        (a.length, Py.dq :: (name ++ [Py.dq])) = true := by
    rw [hspan]
    unfold DownloadSwmm.keepMatch
    simp [DownloadSwmm.isAbsoluteRef_quoted_false name hcolon]
  have hmemN : name ∈ DownloadSwmm.parse_swmm_for_external_files
      (a ++ ('F' :: 'I' :: 'L' :: 'E' :: ' ' :: Py.dq :: (name ++ Py.dq :: '\n' :: b))) := by
    unfold DownloadSwmm.parse_swmm_for_external_files
    rw [List.mem_map]
    refine ⟨(a.length, name), ?_, rfl⟩
    rw [List.mem_filter]
    refine ⟨?_, hkeepN⟩
    unfold DownloadSwmm.fileMatches
    exact List.mem_append.mpr (Or.inl hQ)
  have hmemQ : (Py.dq :: (name ++ [Py.dq])) ∈ DownloadSwmm.parse_swmm_for_external_files
      (a ++ ('F' :: 'I' :: 'L' :: 'E' :: ' ' :: Py.dq :: (name ++ Py.dq :: '\n' :: b))) := by
    unfold DownloadSwmm.parse_swmm_for_external_files
    rw [List.mem_map]
    refine ⟨(a.length, Py.dq :: (name ++ [Py.dq])), ?_, rfl⟩
    rw [List.mem_filter]
    refine ⟨?_, hkeepQ⟩
    unfold DownloadSwmm.fileMatches
    exact List.mem_append.mpr (Or.inr hU)
  refine ⟨hmemN, hmemQ, ?_, ?_⟩
  · unfold DownloadSwmm.find_external_file_local
    simp [hpresent]
  · exact DownloadSwmm.process_rejected_of_missing fs repoDir folderPath _ _ hmemQ
      (DownloadSwmm.find_none_of_quote fs repoDir folderPath _ (by simp) hfs)

/-- C10 (witness): the concrete document [OPTIONS] then FILE "rain.dat"
is rejected for missing external files although repo/sub/rain.dat
exists, because the quote-wrapped token "rain.dat" cannot resolve. -/
theorem c10_quoted_reference_always_rejected_witness :
    (∀ c ∈ "[OPTIONS]\n".data, c.toUpper ≠ 'F')
    ∧ ∃ ms, DownloadSwmm.process_inp_file_parallel ["repo/sub/rain.dat".data]
          "repo".data "sub".data
          ("[OPTIONS]\n".data ++ ('F' :: 'I' :: 'L' :: 'E' :: ' ' :: Py.dq ::
            ("rain.dat".data ++ Py.dq :: '\n' :: [])))
          = .rejectedMissing ms
        ∧ (Py.dq :: ("rain.dat".data ++ [Py.dq])) ∈ ms :=
  ⟨by decide,
   (c10_quoted_reference_always_rejected "[OPTIONS]\n".data "rain.dat".data []
      ["repo/sub/rain.dat".data] "repo".data "sub".data
      (by decide) (by decide) (by decide) (by decide) (by decide) (by decide) (by decide)).2.2.2⟩

/-- C6 (counterexample): in the standalone validator the lookup is a
single pass: for a document whose time-series section follows the
citing gauge line, the cited name TS1 is a member of the
document-wide symbol table, yet an undefined-reference error is
still emitted at the citing line — resolution there is not
order-independent as the claim states. -/
theorem c6_single_pass_counterexample :
    "TS1".data ∈ (ValidateInput.stateAfter
        ["[RAINGAGES]".data, "G1 TIMESERIES TS1".data,
         "[TIMESERIES]".data, "TS1 0:00 0.5".data]).ts
    ∧ (⟨.undefined_reference, 2, .error⟩ : ValidateInput.VIssue)
        ∈ ValidateInput.validateFromLines
          ["[RAINGAGES]".data, "G1 TIMESERIES TS1".data,
           "[TIMESERIES]".data, "TS1 0:00 0.5".data] := by
  decide

/-- C10 (counterexample): the claim's universal is false of the program.
In the document [OPTIONS], [JUNCTIONS], a bare FILE line and then
FILE "n", the unquoted pattern's match starting at the bare FILE
consumes the next line's FILE keyword (its captured token is the
word FILE itself), so no quote-wrapped token is ever extracted; the
quoted pattern still extracts the relative reference n, which — like
the token FILE — resolves in the document's folder, and the document
is accepted, not rejected with missing_external_files. -/
theorem c10_counterexample :
    "n".data ∈ DownloadSwmm.parse_swmm_for_external_files
        "[OPTIONS]\n[JUNCTIONS]\nJ1 0 0\nFILE\nFILE \"n\"\n".data
    ∧ DownloadSwmm.backdropSpan "[OPTIONS]\n[JUNCTIONS]\nJ1 0 0\nFILE\nFILE \"n\"\n".data = none
    ∧ (Py.dq :: 'n' :: [Py.dq]) ∉ DownloadSwmm.parse_swmm_for_external_files
        "[OPTIONS]\n[JUNCTIONS]\nJ1 0 0\nFILE\nFILE \"n\"\n".data
    ∧ (Py.finditer Py.tryU "[OPTIONS]\n[JUNCTIONS]\nJ1 0 0\nFILE\nFILE \"n\"\n".data 0 0).map
        (·.2) = ["FILE".data]
    ∧ DownloadSwmm.process_inp_file_parallel
        ["repo/sub/FILE".data, "repo/sub/n".data] "repo".data "sub".data
        "[OPTIONS]\n[JUNCTIONS]\nJ1 0 0\nFILE\nFILE \"n\"\n".data = .accepted := by
  decide
